import Mathlib

/-!
Verification development for the IPL NRR backend core
(`ipl_api/nrr_math.py`, `ipl_api/points_table.py`, `ipl_api/simulator.py`,
`ipl_api/thresholds.py`, `ipl_api/planner.py`).

The Python code is shallowly embedded:
* Python `int` becomes `Int`; Python `float` becomes `ℚ` (exact rational
  arithmetic stands in for IEEE doubles);
* raised exceptions become `Except String` / an explicit error component;
* in-place mutation of the shared `Dict[str, TeamRow]` state becomes
  explicit state passing: a function that mutates its state argument
  returns the new state, and mutations performed before an exception is
  raised are visible in the returned state, exactly as the surviving
  Python dict would show them;
* the process-wide pseudo-random generator becomes an explicit stream of
  draws threaded through every stochastic call.
-/

deriving instance DecidableEq for Except

namespace IplNrr

/-! ## Run-Rate Arithmetic (`ipl_api/nrr_math.py`) -/

/-- 20 overs of 6 balls, `MAX_BALLS_T20` in the source. -/
def MAX_BALLS_T20 : Int := 20 * 6

/-- Whitespace test used to model Python `str.strip` / `int(...)` stripping. -/
def isSpaceChar (c : Char) : Bool :=
  c = ' ' || c = '\t' || c = '\n' || c = '\r'

/-- Drop leading whitespace (the left half of Python `str.strip`). -/
def lstripChars (l : List Char) : List Char :=
  l.dropWhile isSpaceChar

/-- Drop trailing whitespace (the right half of Python `str.strip`). -/
def rstripChars (l : List Char) : List Char :=
  ((l.reverse).dropWhile isSpaceChar).reverse

/-- Python `str.strip`, on the character list of a string. -/
def pyStrip (l : List Char) : List Char :=
  rstripChars (lstripChars l)

/-- Numeric value of a decimal digit character. -/
def digitVal (c : Char) : Nat :=
  c.toNat - '0'.toNat

/-- Parse a nonempty all-digit character list as a natural number. -/
def parseDigits (l : List Char) : Option Nat :=
  if l = [] then none
  else if l.all Char.isDigit then
    some (l.foldl (fun acc c => acc * 10 + digitVal c) 0)
  else none

/-- Model of Python `int(s)` on a decimal string: surrounding whitespace is
ignored, an optional single sign is allowed, and the rest must be digits.
(`None` models the `ValueError` that `int` raises on malformed input.) -/
def pyIntChars (l : List Char) : Option Int :=
  let t := pyStrip l
  if t.head? = some '-' then (parseDigits t.tail).map (fun n => -(n : Int))
  else if t.head? = some '+' then (parseDigits t.tail).map (fun n => (n : Int))
  else (parseDigits t).map (fun n => (n : Int))

/-- Python `s.split(".", 1)`: split at the first dot, if any. -/
def splitFirstDot : List Char → Option (List Char × List Char)
  | [] => none
  | c :: rest =>
    if c = '.' then some ([], rest)
    else
      match splitFirstDot rest with
      | none => none
      | some (a, b) => some (c :: a, b)

/-- Core of `overs_to_balls`, operating on the stripped character list of
the input string. Mirrors the source control flow: empty check, integer
overs fast path, then dotted overs with the ball part stripped again,
the whole-part negativity check, and the 0..5 ball-part range check. -/
def oversToBallsChars (s : List Char) : Except String Int :=
  if s = [] then .error "Overs cannot be empty"
  else
    match splitFirstDot s with
    | none =>
      match pyIntChars s with
      | none => .error "invalid integer literal in overs"
      | some ov_i =>
        if ov_i < 0 then .error "Invalid overs" else .ok (ov_i * 6)
    | some (ov_part, ball_part) =>
      match (if ov_part = [] then some (0 : Int) else pyIntChars ov_part) with
      | none => .error "invalid integer literal in overs part"
      | some ov_i =>
        match (if pyStrip ball_part = [] then some (0 : Int)
               else pyIntChars (pyStrip ball_part)) with
        | none => .error "invalid integer literal in balls part"
        | some balls_i =>
          if ov_i < 0 then .error "Invalid overs"
          else if balls_i < 0 ∨ 5 < balls_i then
            .error "Invalid overs format (balls part must be 0-5)"
          else .ok (ov_i * 6 + balls_i)

/-- `overs_to_balls` of the source, restricted to string inputs (the only
input shape the repository ever passes). Converts cricket overs notation
to balls: a plain integer means whole overs, and a dotted suffix is a
ball count 0-5. -/
def overs_to_balls (s : String) : Except String Int :=
  oversToBallsChars (pyStrip s.data)

/-- `balls_to_overs_float`: balls to overs-equivalent, 0 for nonpositive. -/
def balls_to_overs_float (balls : Int) : ℚ :=
  if balls ≤ 0 then 0 else (balls : ℚ) / 6

/-- `run_rate`: runs per over, 0 when no over was bowled. -/
def run_rate (runs balls : Int) : ℚ :=
  let overs := balls_to_overs_float balls
  if overs = 0 then 0 else (runs : ℚ) / overs

/-- Aggregate stats needed for NRR (`TeamAggregate` in the source);
all overs stored as balls. -/
structure TeamAggregate where
  team : String
  runs_for : Int := 0
  balls_for : Int := 0
  runs_against : Int := 0
  balls_against : Int := 0

deriving instance DecidableEq, Repr for TeamAggregate

/-- `nrr`: net run rate of an aggregate. -/
def nrr (agg : TeamAggregate) : ℚ :=
  run_rate agg.runs_for agg.balls_for - run_rate agg.runs_against agg.balls_against

/-- `normalize_innings_balls`: an all-out innings is credited as a full
120-ball innings; zero balls are passed through (an innings that must not
be aggregated); negative balls are rejected. -/
def normalize_innings_balls (balls : Int) (all_out : Bool) : Except String Int :=
  if balls < 0 then .error "Balls cannot be negative"
  else if balls = 0 then .ok 0
  else .ok (if all_out then MAX_BALLS_T20 else balls)

/-- `innings_balls`: parse overs, then apply all-out normalization. -/
def innings_balls (overs : String) (all_out : Bool) : Except String Int :=
  match overs_to_balls overs with
  | .error e => .error e
  | .ok raw => normalize_innings_balls raw all_out

/-- `apply_match_batting_first`: the aggregate updater for a completed
match, team1 batting first. Balls overrides (already normalized) take
precedence over parsing the overs strings; a nonpositive balls count on
either side is rejected before anything is mutated. Returns the two
updated aggregates. -/
def apply_match_batting_first (agg_team1 agg_team2 : TeamAggregate)
    (team1_runs : Int) (team1_overs : String)
    (team2_runs : Int) (team2_overs : String)
    (team1_balls_override team2_balls_override : Option Int) :
    Except String (TeamAggregate × TeamAggregate) :=
  match (match team1_balls_override with
         | some b => Except.ok b
         | none => overs_to_balls team1_overs) with
  | .error e => .error e
  | .ok t1_balls =>
    match (match team2_balls_override with
           | some b => Except.ok b
           | none => overs_to_balls team2_overs) with
    | .error e => .error e
    | .ok t2_balls =>
      if t1_balls ≤ 0 ∨ t2_balls ≤ 0 then
        .error "Cannot apply match with <= 0 balls. For NR, skip aggregate update."
      else
        .ok ({ agg_team1 with
                runs_for := agg_team1.runs_for + team1_runs
                balls_for := agg_team1.balls_for + t1_balls
                runs_against := agg_team1.runs_against + team2_runs
                balls_against := agg_team1.balls_against + t2_balls },
             { agg_team2 with
                runs_for := agg_team2.runs_for + team2_runs
                balls_for := agg_team2.balls_for + t2_balls
                runs_against := agg_team2.runs_against + team1_runs
                balls_against := agg_team2.balls_against + t1_balls })

/-! ## Ranking Table (`ipl_api/points_table.py`) -/

/-- A team's table state (`TeamRow` in the source). -/
structure TeamRow where
  team : String
  played : Int
  won : Int
  lost : Int
  nr : Int
  tied : Int
  points : Int
  agg : TeamAggregate

deriving instance DecidableEq, Repr for TeamRow

/-- The shared `Dict[str, TeamRow]` state, modelled as its list of rows in
dict insertion order (`list(state.values())`); rows are looked up by their
`team` field, which is the dict key everywhere in the repository. -/
abbrev State := List TeamRow

/-- `state[t]` on the dict, as a lookup by team code. -/
def lookupTeam (st : State) (t : String) : Option TeamRow :=
  st.find? (fun r => r.team == t)

/-- In-place mutation of the row stored under key `t`, as a functional
update. Order and size of the dict are unchanged. -/
def updateRow (st : State) (t : String) (r : TeamRow) : State :=
  st.map (fun x => if x.team == t then r else x)

/-- The sort key `(points, nrr)` of `compute_sorted_table`, as the lexicographic
"less or equal" relation on rows. -/
def rowKeyLe (a b : TeamRow) : Prop :=
  a.points < b.points ∨ (a.points = b.points ∧ nrr a.agg ≤ nrr b.agg)

/-- Relation realising Python `sorted(rows, key=(points, nrr), reverse=True)`:
`a` may come before `b` iff the key of `b` is ≤ the key of `a`. -/
def tableRel (a b : TeamRow) : Prop :=
  rowKeyLe b a

instance : DecidableRel rowKeyLe := fun a b => by
  unfold rowKeyLe
  infer_instance

instance : DecidableRel tableRel := fun a b => by
  unfold tableRel
  infer_instance

instance : IsTotal TeamRow tableRel := by
  constructor
  intro a b
  unfold tableRel rowKeyLe
  rcases lt_trichotomy a.points b.points with h | h | h
  · exact Or.inr (Or.inl h)
  · rcases le_total (nrr b.agg) (nrr a.agg) with h2 | h2
    · exact Or.inl (Or.inr ⟨h.symm, h2⟩)
    · exact Or.inr (Or.inr ⟨h, h2⟩)
  · exact Or.inl (Or.inl h)

instance : IsTrans TeamRow tableRel := by
  constructor
  intro a b c hab hbc
  unfold tableRel rowKeyLe at *
  rcases hab with h1 | ⟨h1, h1q⟩ <;> rcases hbc with h2 | ⟨h2, h2q⟩
  · exact Or.inl (h2.trans h1)
  · exact Or.inl (lt_of_le_of_lt (le_of_eq h2) h1)
  · exact Or.inl (lt_of_lt_of_le h2 (le_of_eq h1))
  · exact Or.inr ⟨h2.trans h1, h2q.trans h1q⟩

/-- Python `round` (banker's rounding: ties go to the even integer). -/
def roundHalfEven (q : ℚ) : Int :=
  let f := ⌊q⌋
  let fr := q - (f : ℚ)
  if fr < 1/2 then f
  else if 1/2 < fr then f + 1
  else if Even f then f else f + 1

/-- Python `round(x, 6)` used for the transported NRR value. -/
def round6 (q : ℚ) : ℚ :=
  (roundHalfEven (q * 1000000) : ℚ) / 1000000

/-- One output record of `compute_sorted_table` (a plain dict in the source). -/
structure SortedRow where
  pos : Nat
  team : String
  played : Int
  won : Int
  lost : Int
  nr : Int
  tied : Int
  points : Int
  nrr : ℚ
  runs_for : Int
  balls_for : Int
  runs_against : Int
  balls_against : Int

deriving instance DecidableEq, Repr for SortedRow

/-- Build the output record at a given 1-based position. -/
def mkSortedRow (idx : Nat) (r : TeamRow) : SortedRow :=
  { pos := idx
    team := r.team
    played := r.played
    won := r.won
    lost := r.lost
    nr := r.nr
    tied := r.tied
    points := r.points
    nrr := round6 (nrr r.agg)
    runs_for := r.agg.runs_for
    balls_for := r.agg.balls_for
    runs_against := r.agg.runs_against
    balls_against := r.agg.balls_against }

/-- `enumerate(sorted_rows, start=k)` rendered into output records. -/
def withPos : Nat → List TeamRow → List SortedRow
  | _, [] => []
  | i, r :: rest => mkSortedRow i r :: withPos (i + 1) rest

/-- `compute_sorted_table`: ranked table sorted by points descending then
NRR descending, 1-indexed. `List.insertionSort` is a stable sort, like
Python's `sorted`. -/
def compute_sorted_table (rows : List TeamRow) : List SortedRow :=
  withPos 1 (List.insertionSort tableRel rows)

/-- `apply_result`: updates played/won/lost/nr/tied/points only. The two
returned rows carry every mutation performed before a `raise` would fire
(in particular `played` is incremented first, unconditionally); the third
component is the raised error, if any. -/
def apply_result (row_a row_b : TeamRow) (result : String) (winner : Option String) :
    TeamRow × TeamRow × Option String :=
  let a1 := { row_a with played := row_a.played + 1 }
  let b1 := { row_b with played := row_b.played + 1 }
  if result = "NR" then
    ({ a1 with nr := a1.nr + 1, points := a1.points + 1 },
     { b1 with nr := b1.nr + 1, points := b1.points + 1 }, none)
  else if result = "TIE" then
    ({ a1 with tied := a1.tied + 1, points := a1.points + 1 },
     { b1 with tied := b1.tied + 1, points := b1.points + 1 }, none)
  else if result ≠ "WIN" then
    (a1, b1, some "Invalid result")
  else
    match winner with
    | none => (a1, b1, some "winner is required when result=WIN")
    | some w =>
      if w = row_a.team then
        ({ a1 with won := a1.won + 1, points := a1.points + 2 },
         { b1 with lost := b1.lost + 1 }, none)
      else if w = row_b.team then
        ({ a1 with lost := a1.lost + 1 },
         { b1 with won := b1.won + 1, points := b1.points + 2 }, none)
      else
        (a1, b1, some "winner must be either team A or team B")

/-! ## Match Simulator (`ipl_api/simulator.py`) -/

/-- Innings path of `simulate_match`, entered when all four of
runs/overs are supplied for both sides (`has_innings`). The state already
carries the aggregate update when the TIE equal-score check or the WIN
derivation fails, exactly as the in-place Python mutation does. -/
def simulateInnings (state : State) (team1 team2 : String)
    (row1 row2 : TeamRow)
    (t1r : Int) (t1o : String) (t2r : Int) (t2o : String)
    (team1_all_out team2_all_out : Bool)
    (result : String) : State × Except String (List SortedRow) :=
  match overs_to_balls t1o with
  | .error e => (state, .error e)
  | .ok b1 =>
    match overs_to_balls t2o with
    | .error e => (state, .error e)
    | .ok b2 =>
      match normalize_innings_balls b1 team1_all_out with
      | .error e => (state, .error e)
      | .ok b1_norm =>
        match normalize_innings_balls b2 team2_all_out with
        | .error e => (state, .error e)
        | .ok b2_norm =>
          match apply_match_batting_first row1.agg row2.agg t1r t1o t2r t2o
              (some b1_norm) (some b2_norm) with
          | .error e => (state, .error e)
          | .ok (a1, a2) =>
            let row1A := { row1 with agg := a1 }
            let row2A := { row2 with agg := a2 }
            let stA := updateRow (updateRow state team1 row1A) team2 row2A
            if result = "TIE" then
              if t1r ≠ t2r then
                (stA, .error "result=TIE requires equal scores when innings are provided")
              else
                match apply_result row1A row2A "TIE" none with
                | (r1, r2, _) =>
                  let stB := updateRow (updateRow stA team1 r1) team2 r2
                  (stB, .ok (compute_sorted_table stB))
            else if result ≠ "WIN" then
              (stA, .error "Invalid result")
            else
              if t2r < t1r then
                match apply_result row1A row2A "WIN" (some team1) with
                | (r1, r2, none) =>
                  let stB := updateRow (updateRow stA team1 r1) team2 r2
                  (stB, .ok (compute_sorted_table stB))
                | (r1, r2, some e) =>
                  (updateRow (updateRow stA team1 r1) team2 r2, .error e)
              else if t1r < t2r then
                match apply_result row1A row2A "WIN" (some team2) with
                | (r1, r2, none) =>
                  let stB := updateRow (updateRow stA team1 r1) team2 r2
                  (stB, .ok (compute_sorted_table stB))
                | (r1, r2, some e) =>
                  (updateRow (updateRow stA team1 r1) team2 r2, .error e)
              else
                (stA, .error "Scores are tied; use result=TIE")

/-- No-innings path of `simulate_match` (some innings field missing, so
`has_innings` is false): TIE is points-only, WIN needs an explicit winner. -/
def simulateNoInnings (state : State) (team1 team2 : String)
    (row1 row2 : TeamRow) (result : String) (winner : Option String) :
    State × Except String (List SortedRow) :=
  if result = "TIE" then
    match apply_result row1 row2 "TIE" none with
    | (r1, r2, _) =>
      let stB := updateRow (updateRow state team1 r1) team2 r2
      (stB, .ok (compute_sorted_table stB))
  else if result ≠ "WIN" then
    (state, .error "Invalid result")
  else
    match winner with
    | none =>
      (state, .error "winner is required when result=WIN and innings do not determine winner")
    | some w =>
      match apply_result row1 row2 "WIN" (some w) with
      | (r1, r2, none) =>
        let stB := updateRow (updateRow state team1 r1) team2 r2
        (stB, .ok (compute_sorted_table stB))
      | (r1, r2, some e) =>
        (updateRow (updateRow state team1 r1) team2 r2, .error e)

/-- `simulate_match`: the single atomic state transition of the simulator.
Returns the state as the Python caller sees it after the call (including
mutations that precede a raised error) together with either the freshly
ranked table or the raised error. Convention: team1 bats first. -/
def simulate_match (state : State) (team1 team2 : String)
    (team1_runs : Option Int) (team1_overs : Option String)
    (team2_runs : Option Int) (team2_overs : Option String)
    (team1_all_out team2_all_out : Bool)
    (result : String) (winner : Option String) :
    State × Except String (List SortedRow) :=
  match lookupTeam state team1, lookupTeam state team2 with
  | some row1, some row2 =>
    if team1 = team2 then (state, .error "team1 and team2 must be different")
    else if result = "NR" then
      match apply_result row1 row2 "NR" none with
      | (r1, r2, _) =>
        let st1 := updateRow (updateRow state team1 r1) team2 r2
        (st1, .ok (compute_sorted_table st1))
    else
      match team1_runs, team1_overs, team2_runs, team2_overs with
      | some t1r, some t1o, some t2r, some t2o =>
        simulateInnings state team1 team2 row1 row2 t1r t1o t2r t2o
          team1_all_out team2_all_out result
      | _, _, _, _ =>
        simulateNoInnings state team1 team2 row1 row2 result winner
  | _, _ => (state, .error "Unknown team(s) in match")

/-! ## Threshold Solver (`ipl_api/thresholds.py`) -/

/-- Decimal rendering of a natural number (Python `str`/f-string); the
fuel argument (always called with enough fuel) keeps the division
recursion structural. -/
def natDecimalCharsAux : Nat → Nat → List Char
  | 0, n => [Nat.digitChar n]
  | fuel + 1, n =>
    if n < 10 then [Nat.digitChar n]
    else natDecimalCharsAux fuel (n / 10) ++ [Nat.digitChar (n % 10)]

/-- Decimal rendering of a natural number (Python `str`/f-string). -/
def natDecimalChars (n : Nat) : List Char :=
  natDecimalCharsAux n n

/-- Decimal rendering of a natural number as a string. -/
def natDecimalStr (n : Nat) : String :=
  ⟨natDecimalChars n⟩

/-- Decimal rendering of an integer as a string. -/
def intDecimalStr (i : Int) : String :=
  if i < 0 then "-" ++ natDecimalStr (-i).toNat else natDecimalStr i.toNat

/-- `_clone_state`: field-by-field copy of every row and aggregate. -/
def _clone_state (state : State) : State :=
  state.map (fun r =>
    { team := r.team
      played := r.played
      won := r.won
      lost := r.lost
      nr := r.nr
      tied := r.tied
      points := r.points
      agg :=
        { team := r.agg.team
          runs_for := r.agg.runs_for
          balls_for := r.agg.balls_for
          runs_against := r.agg.runs_against
          balls_against := r.agg.balls_against } })

/-- `_pos_map` lookup: the dict comprehension keeps the last entry for a
team, hence the first match in the reversed table. -/
def _pos_map (sorted_table : List SortedRow) (t : String) : Option Nat :=
  ((sorted_table.reverse).find? (fun row => row.team == t)).map (fun row => row.pos)

/-- `_is_above`: smaller position means ranked higher; missing teams raise. -/
def _is_above (sorted_table : List SortedRow) (focus competitor : String) :
    Except String Bool :=
  match _pos_map sorted_table focus, _pos_map sorted_table competitor with
  | some pf, some pc => .ok (decide (pf < pc))
  | _, _ => .error "focus/competitor not present in table after simulation"

/-- `_balls_to_overs_str`: 119 becomes "19.5". -/
def _balls_to_overs_str (balls : Int) : String :=
  if balls ≤ 0 then "0.0"
  else natDecimalStr (balls.toNat / 6) ++ "." ++ natDecimalStr (balls.toNat % 6)

/-- Result of one binary-search solve (`ThresholdResult` in the source);
`details` carries the auxiliary key/value payload in rendered form. -/
structure ThresholdResult where
  ok : Bool
  mode : String
  focus : String
  opponent : String
  competitor : String
  reason : String
  value : Option Int := none
  details : Option (List (String × String)) := none

deriving instance DecidableEq, Repr for ThresholdResult

/-- Python `name.strip().upper()` normalization of a team argument. -/
def normTeamName (s : String) : String :=
  s.trim.toUpper

/-- The ranking predicate probed by `chase_loss_min_score` (the `check`
closure): clone the base state, simulate the focus team losing a chase of
`target_score` with `x` runs in `assume_chase_balls` balls, and test
whether it is still ranked above the competitor. -/
def chase_loss_check (base_state : State) (focus opponent competitor : String)
    (target_score assume_chase_balls : Int) (x : Int) : Except String Bool :=
  let chase_overs := _balls_to_overs_str assume_chase_balls
  let st := _clone_state base_state
  match (simulate_match st opponent focus (some target_score) (some "20.0")
      (some x) (some chase_overs) false false "WIN" none).2 with
  | .error e => .error e
  | .ok table => _is_above table focus competitor

/-- The `check` closure of `defend_win_max_opp_score`: the focus team
defends `defending_score`, the opponent is held to `x` in
`assume_opp_balls` balls. -/
def defend_win_check (base_state : State) (focus opponent competitor : String)
    (defending_score assume_opp_balls : Int) (x : Int) : Except String Bool :=
  let opp_overs := _balls_to_overs_str assume_opp_balls
  let st := _clone_state base_state
  match (simulate_match st focus opponent (some defending_score) (some "20.0")
      (some x) (some opp_overs) false false "WIN" none).2 with
  | .error e => .error e
  | .ok table => _is_above table focus competitor

/-- The `check` closure of `chase_win_max_balls`: the focus team wins the
chase of `target_score` with `target_score + 1` runs in `balls` balls. -/
def chase_win_check (base_state : State) (focus opponent competitor : String)
    (target_score : Int) (balls : Int) : Except String Bool :=
  let st := _clone_state base_state
  match (simulate_match st opponent focus (some target_score) (some "20.0")
      (some (target_score + 1)) (some (_balls_to_overs_str balls))
      false false "WIN" none).2 with
  | .error e => .error e
  | .ok table => _is_above table focus competitor

/-- The `while lo <= hi` loop of the minimizing solvers: on success keep
`mid` as best and search below, otherwise search above. A raised check
error aborts the whole solve. (Python `//` and Lean `Int` `/` agree on
the nonnegative operands arising here.) -/
def searchMinTrue (check : Int → Except String Bool) (lo hi : Int) (best : Option Int) :
    Except String (Option Int) :=
  if lo ≤ hi then
    let mid := (lo + hi) / 2
    match check mid with
    | .error e => .error e
    | .ok true => searchMinTrue check lo (mid - 1) (some mid)
    | .ok false => searchMinTrue check (mid + 1) hi best
  else .ok best
termination_by (hi + 1 - lo).toNat
decreasing_by
  all_goals simp_wf
  all_goals omega

/-- The `while lo <= hi` loop of the maximizing solvers: on success keep
`mid` as best and search above, otherwise search below. -/
def searchMaxTrue (check : Int → Except String Bool) (lo hi : Int) (best : Option Int) :
    Except String (Option Int) :=
  if lo ≤ hi then
    let mid := (lo + hi) / 2
    match check mid with
    | .error e => .error e
    | .ok true => searchMaxTrue check (mid + 1) hi (some mid)
    | .ok false => searchMaxTrue check lo (mid - 1) best
  else .ok best
termination_by (hi + 1 - lo).toNat
decreasing_by
  all_goals simp_wf
  all_goals omega

/-- `chase_loss_min_score`: minimum runs (0..target-1) the chasing focus
team must score, in a fixed assumed ball count, to stay above the
competitor despite losing. The first component is the caller-visible
base state after the call (never written by the solver). -/
def chase_loss_min_score (base_state : State)
    (chasing_team opponent_team target_team : String)
    (target_score : Int) (assume_chase_balls : Int) :
    State × Except String ThresholdResult :=
  let focus := normTeamName chasing_team
  let opponent := normTeamName opponent_team
  let competitor := normTeamName target_team
  if target_score ≤ 0 then
    (base_state, .ok ⟨false, "CHASE_LOSS_MIN_SCORE", focus, opponent, competitor,
      "target_score must be > 0", none, none⟩)
  else if assume_chase_balls < 1 ∨ MAX_BALLS_T20 < assume_chase_balls then
    (base_state, .ok ⟨false, "CHASE_LOSS_MIN_SCORE", focus, opponent, competitor,
      "assume_chase_balls must be 1..120", none, none⟩)
  else if (lookupTeam base_state focus).isNone then
    (base_state, .ok ⟨false, "CHASE_LOSS_MIN_SCORE", focus, opponent, competitor,
      "Unknown team: " ++ focus, none, none⟩)
  else if (lookupTeam base_state opponent).isNone then
    (base_state, .ok ⟨false, "CHASE_LOSS_MIN_SCORE", focus, opponent, competitor,
      "Unknown team: " ++ opponent, none, none⟩)
  else if (lookupTeam base_state competitor).isNone then
    (base_state, .ok ⟨false, "CHASE_LOSS_MIN_SCORE", focus, opponent, competitor,
      "Unknown team: " ++ competitor, none, none⟩)
  else
    let chase_overs := _balls_to_overs_str assume_chase_balls
    let check := chase_loss_check base_state focus opponent competitor
      target_score assume_chase_balls
    match check (target_score - 1) with
    | .error e => (base_state, .error e)
    | .ok false =>
      (base_state, .ok ⟨false, "CHASE_LOSS_MIN_SCORE", focus, opponent, competitor,
        "Even scoring (target_score - 1) still drops below competitor after loss.",
        none, none⟩)
    | .ok true =>
      match searchMinTrue check 0 (target_score - 1) none with
      | .error e => (base_state, .error e)
      | .ok best =>
        (base_state, .ok ⟨true, "CHASE_LOSS_MIN_SCORE", focus, opponent, competitor,
          "Minimum runs (even in loss) to stay above competitor.", best,
          some [("assume_chase_balls", intDecimalStr assume_chase_balls),
                ("assume_chase_overs", chase_overs)]⟩)

/-- `defend_win_max_opp_score`: maximum runs the opponent may be held to
(0..defending_score-1) with the defending focus team still above the
competitor. -/
def defend_win_max_opp_score (base_state : State)
    (defending_team opponent_team target_team : String)
    (defending_score : Int) (assume_opp_balls : Int) :
    State × Except String ThresholdResult :=
  let focus := normTeamName defending_team
  let opponent := normTeamName opponent_team
  let competitor := normTeamName target_team
  if defending_score ≤ 0 then
    (base_state, .ok ⟨false, "DEFEND_WIN_MAX_OPP_SCORE", focus, opponent, competitor,
      "defending_score must be > 0", none, none⟩)
  else if assume_opp_balls < 1 ∨ MAX_BALLS_T20 < assume_opp_balls then
    (base_state, .ok ⟨false, "DEFEND_WIN_MAX_OPP_SCORE", focus, opponent, competitor,
      "assume_opp_balls must be 1..120", none, none⟩)
  else if (lookupTeam base_state focus).isNone then
    (base_state, .ok ⟨false, "DEFEND_WIN_MAX_OPP_SCORE", focus, opponent, competitor,
      "Unknown team: " ++ focus, none, none⟩)
  else if (lookupTeam base_state opponent).isNone then
    (base_state, .ok ⟨false, "DEFEND_WIN_MAX_OPP_SCORE", focus, opponent, competitor,
      "Unknown team: " ++ opponent, none, none⟩)
  else if (lookupTeam base_state competitor).isNone then
    (base_state, .ok ⟨false, "DEFEND_WIN_MAX_OPP_SCORE", focus, opponent, competitor,
      "Unknown team: " ++ competitor, none, none⟩)
  else
    let opp_overs := _balls_to_overs_str assume_opp_balls
    let check := defend_win_check base_state focus opponent competitor
      defending_score assume_opp_balls
    match check 0 with
    | .error e => (base_state, .error e)
    | .ok false =>
      (base_state, .ok ⟨false, "DEFEND_WIN_MAX_OPP_SCORE", focus, opponent, competitor,
        "Even restricting opponent to 0 still drops below competitor after win.",
        none, none⟩)
    | .ok true =>
      match searchMaxTrue check 0 (defending_score - 1) none with
      | .error e => (base_state, .error e)
      | .ok best =>
        (base_state, .ok ⟨true, "DEFEND_WIN_MAX_OPP_SCORE", focus, opponent, competitor,
          "Maximum opponent score allowed (while defending) to stay above competitor.",
          best,
          some [("assume_opp_balls", intDecimalStr assume_opp_balls),
                ("assume_opp_overs", opp_overs)]⟩)

/-- `chase_win_max_balls`: maximum balls (1..120) the chasing focus team
may use in a winning chase of `target_score` while staying above the
competitor. -/
def chase_win_max_balls (base_state : State)
    (chasing_team opponent_team target_team : String) (target_score : Int) :
    State × Except String ThresholdResult :=
  let focus := normTeamName chasing_team
  let opponent := normTeamName opponent_team
  let competitor := normTeamName target_team
  if target_score ≤ 0 then
    (base_state, .ok ⟨false, "CHASE_WIN_MAX_BALLS", focus, opponent, competitor,
      "target_score must be > 0", none, none⟩)
  else if (lookupTeam base_state focus).isNone then
    (base_state, .ok ⟨false, "CHASE_WIN_MAX_BALLS", focus, opponent, competitor,
      "Unknown team: " ++ focus, none, none⟩)
  else if (lookupTeam base_state opponent).isNone then
    (base_state, .ok ⟨false, "CHASE_WIN_MAX_BALLS", focus, opponent, competitor,
      "Unknown team: " ++ opponent, none, none⟩)
  else if (lookupTeam base_state competitor).isNone then
    (base_state, .ok ⟨false, "CHASE_WIN_MAX_BALLS", focus, opponent, competitor,
      "Unknown team: " ++ competitor, none, none⟩)
  else
    let check := chase_win_check base_state focus opponent competitor target_score
    match check 1 with
    | .error e => (base_state, .error e)
    | .ok false =>
      (base_state, .ok ⟨false, "CHASE_WIN_MAX_BALLS", focus, opponent, competitor,
        "Even winning very fast does not keep focus above competitor.", none, none⟩)
    | .ok true =>
      match searchMaxTrue check 1 MAX_BALLS_T20 none with
      | .error e => (base_state, .error e)
      | .ok best =>
        (base_state, .ok ⟨true, "CHASE_WIN_MAX_BALLS", focus, opponent, competitor,
          "Maximum balls allowed while chasing and winning to stay above competitor.",
          best,
          some [("overs_str",
            match best with
            | some b => _balls_to_overs_str b
            | none => "None")]⟩)

/-! ## Monte Carlo Planner (`ipl_api/planner.py`)

The Python module consumes the process pseudo-random generator
`random.Random(seed)`. That generator lives outside the repository, so it
is modelled abstractly: an `Rng` is a stream of draws plus a cursor, and
each stochastic library call (`random`, `gauss`, `choice`) consumes one
draw deterministically. The exact distribution of `gauss`/`choice` is a
modelling stand-in; what matters for the stated properties is that every
sampler is a deterministic function of the seeded stream. -/

/-- Abstract model of `random.Random`: a stream of draws and a cursor. -/
structure Rng where
  stream : Nat → ℚ
  idx : Nat

/-- `rng.random()`: next draw (a uniform variate in `[0, 1)`). -/
def Rng.random (r : Rng) : ℚ × Rng :=
  (r.stream r.idx, { r with idx := r.idx + 1 })

/-- Python `int(q)` on a float: truncation toward zero. -/
def pyTrunc (q : ℚ) : Int :=
  if q < 0 then -(⌊-q⌋) else ⌊q⌋

/-- Model of `rng.gauss(mu, sigma)`: consumes one draw; the shape of the
transformation is a stand-in for the library's Gaussian sampler. -/
def Rng.gauss (r : Rng) (mu sigma : ℚ) : ℚ × Rng :=
  let (u, r') := r.random
  (mu + sigma * (u - 1/2), r')

/-- Model of `rng.choice(seq)`: consumes one draw and picks an index. -/
def Rng.choice (r : Rng) (l : List α) (dflt : α) : α × Rng :=
  let (u, r') := r.random
  (l.getD (min (pyTrunc (u * l.length)).toNat (l.length - 1)) dflt, r')

/-- Stand-in for the seeded Mersenne Twister stream of `random.Random(s)`:
a fixed pseudo-random sequence in `[0, 1)` depending only on the seed.
The generator itself is library code outside this repository. -/
def prngStream (seed : Int) : Nat → ℚ :=
  fun n =>
    mkRat (((seed + (n : Int) + 1) * 6364136223846793005 + 1442695040888963407)
      % 2147483647) 2147483647

/-- `random.Random(seed)`: a concrete seed yields the seed-determined
stream; `None` seeds from ambient entropy, modelled as the `world`
argument threaded to the planner. -/
def mkRandom (seed : Option Int) (world : Nat → ℚ) : Rng :=
  match seed with
  | some s => ⟨prngStream s, 0⟩
  | none => ⟨world, 0⟩

/-- A remaining fixture (`Fixture` in the source). -/
structure Fixture where
  team1 : String
  team2 : String
  batting_first_mode : String := "toss"
  nr_probability : ℚ := 0
  tie_probability : ℚ := 0

deriving instance DecidableEq, Repr for Fixture

/-- Per-team, per-fixture outcome record (`MatchOutcomeMeta`). -/
structure MatchOutcomeMeta where
  fixture_index : Nat
  fixture : Fixture
  team : String
  played : Bool
  batted_first : Option Bool := none
  result : Option String := none
  won : Option Bool := none
  win_margin_runs : Option Int := none
  chase_balls_used : Option Int := none
  overshoot_runs : Option Int := none
  loss_margin_runs : Option Int := none
  loss_chase_runs_scored : Option Int := none
  loss_defend_opp_balls_used : Option Int := none

deriving instance DecidableEq, Repr for MatchOutcomeMeta

/-- `_clamp`. -/
def _clamp (x lo hi : Int) : Int :=
  max lo (min hi x)

/-- `_percentile`: index `round((n-1)*p)` (banker's rounding, clamped)
into the ascending sort of the samples. -/
def _percentile (values : List Int) (p : ℚ) : Option Int :=
  if values = [] then none
  else
    let v := List.insertionSort (fun a b : Int => a ≤ b) values
    let idx := roundHalfEven (((v.length : Int) - 1 : Int) * p)
    some (v.getD (_clamp idx 0 ((v.length : Int) - 1)).toNat 0)

/-- `_fixture_key`. -/
def _fixture_key (i : Nat) (fx : Fixture) : String :=
  natDecimalStr (i + 1) ++ ":" ++ fx.team1 ++ " vs " ++ fx.team2

/-- `_resolve_batting_order`: fixed order or a fair coin toss. -/
def _resolve_batting_order (fx : Fixture) (rng : Rng) : (String × String) × Rng :=
  if fx.batting_first_mode = "team1" then ((fx.team1, fx.team2), rng)
  else if fx.batting_first_mode = "team2" then ((fx.team2, fx.team1), rng)
  else
    let (u, rng') := rng.random
    (if u < 1/2 then (fx.team1, fx.team2) else (fx.team2, fx.team1), rng')

/-- `_sample_result`: uniform draw against cumulative NR/TIE thresholds,
remaining mass is WIN. -/
def _sample_result (fx : Fixture) (rng : Rng) : String × Rng :=
  let (u, rng') := rng.random
  if u < fx.nr_probability then ("NR", rng')
  else if u < fx.nr_probability + fx.tie_probability then ("TIE", rng')
  else ("WIN", rng')

/-- `_rand_first_innings_runs`: Normal(170, 25) clamped to 120..240. -/
def _rand_first_innings_runs (rng : Rng) : Int × Rng :=
  let (g, rng') := rng.gauss 170 25
  (_clamp (pyTrunc g) 120 240, rng')

/-- `_rand_defend_margin`: |Normal(15, 18)| clamped to 1..80. -/
def _rand_defend_margin (rng : Rng) : Int × Rng :=
  let (g, rng') := rng.gauss 15 18
  (_clamp (pyTrunc |g|) 1 80, rng')

/-- `_rand_chase_balls_used`: linear in the target with noise, clamped. -/
def _rand_chase_balls_used (target_runs : Int) (rng : Rng) : Int × Rng :=
  let base := pyTrunc (90 + ((target_runs : ℚ) - 150) * (8/10))
  let (g, rng') := rng.gauss 0 14
  (_clamp (base + pyTrunc g) 1 MAX_BALLS_T20, rng')

/-- `_winning_ball_runs`: weighted winning-delivery runs. -/
def _winning_ball_runs (rng : Rng) : Int × Rng :=
  rng.choice [1, 1, 2, 2, 3, 4, 6] 1

/-- f-string `"balls//6.balls%6"` used by the innings generators. -/
def oversFStr (balls : Int) : String :=
  natDecimalStr (balls.toNat / 6) ++ "." ++ natDecimalStr (balls.toNat % 6)

/-- `_build_innings_for_win`: synthesizes both innings for a WIN, returning
(bf_runs, bf_overs, bf_all_out, bs_runs, bs_overs, bs_all_out, overshoot). -/
def _build_innings_for_win (bat_first _bat_second winner : String) (rng : Rng) :
    (Int × String × Bool × Int × String × Bool × Int) × Rng :=
  let (bf_runs, r1) := _rand_first_innings_runs rng
  let (u, r2) := r1.random
  let (bf_overs_str, bf_all_out, r3) :=
    if u < 1/10 then
      let (g, r3) := r2.gauss 112 10
      let balls := _clamp (pyTrunc g) 60 119
      (oversFStr balls, true, r3)
    else ("20.0", false, r2)
  let target := bf_runs + 1
  if winner = bat_first then
    let (margin, r4) := _rand_defend_margin r3
    let bs_runs := _clamp (bf_runs - margin) 0 bf_runs
    let (u2, r5) := r4.random
    if u2 < 1/5 then
      let (g2, r6) := r5.gauss 108 16
      let balls2 := _clamp (pyTrunc g2) 30 MAX_BALLS_T20
      ((bf_runs, bf_overs_str, bf_all_out, bs_runs, oversFStr balls2, true, 0), r6)
    else
      ((bf_runs, bf_overs_str, bf_all_out, bs_runs, "20.0", false, 0), r5)
  else
    let (balls_used, r4) := _rand_chase_balls_used target r3
    let (win_ball, r5) := _winning_ball_runs r4
    let (nlb, r6) := r5.choice [1, 2, 3, 4, 5, 6] 1
    let needed_last_ball := if win_ball < nlb then win_ball else nlb
    let runs_before := target - needed_last_ball
    let bs_runs := runs_before + win_ball
    let overshoot := max 0 (bs_runs - target)
    ((bf_runs, bf_overs_str, bf_all_out, bs_runs, oversFStr balls_used, false,
      overshoot), r6)

/-- `_build_innings_for_tie`: both innings end on the same score. -/
def _build_innings_for_tie (rng : Rng) :
    (Int × String × Bool × Int × String × Bool) × Rng :=
  let (bf_runs, r1) := _rand_first_innings_runs rng
  let (u, r2) := r1.random
  let (bf_overs_str, bf_all_out, r3) :=
    if u < 1/20 then
      let (g, r3) := r2.gauss 110 12
      let balls := _clamp (pyTrunc g) 60 119
      (oversFStr balls, true, r3)
    else ("20.0", false, r2)
  let bs_runs := bf_runs
  let (u2, r4) := r3.random
  if u2 < 2/25 then
    let (g2, r5) := r4.gauss 115 10
    let balls2 := _clamp (pyTrunc g2) 30 MAX_BALLS_T20
    ((bf_runs, bf_overs_str, bf_all_out, bs_runs, oversFStr balls2, true), r5)
  else
    ((bf_runs, bf_overs_str, bf_all_out, bs_runs, "20.0", false), r4)

/-- `_make_team_meta`: per-team outcome extraction for one fixture. The
`overs_to_balls` parse of the second-innings overs string is fallible in
the source, so the model is `Except`-valued. -/
def _make_team_meta (fixture_index : Nat) (fx : Fixture) (team : String)
    (bat_first _bat_second : String) (result : String) (winner : Option String)
    (bf_runs bs_runs : Option Int) (bs_overs_str : Option String)
    (overshoot_runs : Option Int) : Except String MatchOutcomeMeta :=
  let played := team = fx.team1 ∨ team = fx.team2
  let m : MatchOutcomeMeta :=
    { fixture_index := fixture_index
      fixture := fx
      team := team
      played := played
      result := some result }
  if ¬ played then .ok m
  else
    let m := { m with batted_first := some (team = bat_first) }
    if result ≠ "WIN" then .ok m
    else
      match winner, bf_runs, bs_runs, bs_overs_str with
      | some w, some bfr, some bsr, some bso =>
        if w = team then
          if team = bat_first then
            .ok { m with won := some true, win_margin_runs := some (bfr - bsr) }
          else
            match overs_to_balls bso with
            | .error e => .error e
            | .ok balls =>
              .ok { m with
                won := some true
                chase_balls_used := some balls
                overshoot_runs := some (overshoot_runs.getD 0) }
        else
          if team = bat_first then
            match overs_to_balls bso with
            | .error e => .error e
            | .ok balls =>
              .ok { m with
                won := some false
                loss_margin_runs := some (bsr - bfr)
                loss_defend_opp_balls_used := some balls }
          else
            .ok { m with
              won := some false
              loss_margin_runs := some (bfr - bsr)
              loss_chase_runs_scored := some bsr }
      | _, _, _, _ => .ok m

/-- Build the per-team metas for one simulated fixture, in team order. -/
def buildMetas (fixture_index : Nat) (fx : Fixture)
    (bat_first bat_second : String) (result : String) (winner : Option String)
    (bf_runs bs_runs : Option Int) (bs_overs_str : Option String)
    (overshoot_runs : Option Int) : List String → Except String (List MatchOutcomeMeta)
  | [] => .ok []
  | t :: rest =>
    match _make_team_meta fixture_index fx t bat_first bat_second result winner
        bf_runs bs_runs bs_overs_str overshoot_runs with
    | .error e => .error e
    | .ok m =>
      match buildMetas fixture_index fx bat_first bat_second result winner
          bf_runs bs_runs bs_overs_str overshoot_runs rest with
      | .error e => .error e
      | .ok ms => .ok (m :: ms)

/-- The per-fixture body of `_run_one`: validate, resolve batting order,
sample a result, synthesize innings if needed, push the match through the
simulator, and collect metas. -/
def runOneFixture (base_state : State) (teams : List String) (use_nrr : Bool)
    (i : Nat) (fx : Fixture) (st : State) (rng : Rng) :
    Except String (State × List MatchOutcomeMeta × Rng) :=
  if fx.team1 = fx.team2 then .error "Invalid fixture (same team twice)"
  else if (lookupTeam base_state fx.team1).isNone ∨
      (lookupTeam base_state fx.team2).isNone then
    .error "Unknown team in fixture"
  else if fx.nr_probability < 0 ∨ fx.tie_probability < 0 then
    .error "nr_probability and tie_probability must be >= 0"
  else if 1 < fx.nr_probability + fx.tie_probability then
    .error "nr_probability + tie_probability must be <= 1.0"
  else
    let ((bat_first, bat_second), rng1) := _resolve_batting_order fx rng
    let (result, rng2) := _sample_result fx rng1
    if result = "NR" then
      match simulate_match st bat_first bat_second none none none none
          false false "NR" none with
      | (stN, .error e) =>
        let _ := stN
        .error e
      | (stN, .ok _) =>
        match buildMetas i fx bat_first bat_second "NR" none none none none
            (some 0) teams with
        | .error e => .error e
        | .ok ms => .ok (stN, ms, rng2)
    else if result = "TIE" then
      let ((bf_runs, bf_overs, bf_all_out, bs_runs, bs_overs, bs_all_out), rng3) :=
        if use_nrr then _build_innings_for_tie rng2
        else ((160, "20.0", false, 160, "20.0", false), rng2)
      match simulate_match st bat_first bat_second (some bf_runs) (some bf_overs)
          (some bs_runs) (some bs_overs) bf_all_out bs_all_out "TIE" none with
      | (stT, .error e) =>
        let _ := stT
        .error e
      | (stT, .ok _) =>
        match buildMetas i fx bat_first bat_second "TIE" none (some bf_runs)
            (some bs_runs) (some bs_overs) (some 0) teams with
        | .error e => .error e
        | .ok ms => .ok (stT, ms, rng3)
    else
      let (winner, rng3) := rng2.choice [bat_first, bat_second] bat_first
      let ((bf_runs, bf_overs, bf_all_out, bs_runs, bs_overs, bs_all_out, overshoot),
          rng4) :=
        if use_nrr then _build_innings_for_win bat_first bat_second winner rng3
        else ((160, "20.0", false, if winner = bat_first then 150 else 161,
               "20.0", false, 0), rng3)
      match simulate_match st bat_first bat_second (some bf_runs) (some bf_overs)
          (some bs_runs) (some bs_overs) bf_all_out bs_all_out "WIN" (some winner) with
      | (stW, .error e) =>
        let _ := stW
        .error e
      | (stW, .ok _) =>
        match buildMetas i fx bat_first bat_second "WIN" (some winner) (some bf_runs)
            (some bs_runs) (some bs_overs) (some overshoot) teams with
        | .error e => .error e
        | .ok ms => .ok (stW, ms, rng4)

/-- The fixture loop of `_run_one`. -/
def runOneLoop (base_state : State) (teams : List String) (use_nrr : Bool) :
    Nat → List Fixture → State → List MatchOutcomeMeta → Rng →
    Except String (State × List MatchOutcomeMeta × Rng)
  | _, [], st, metas, rng => .ok (st, metas, rng)
  | i, fx :: rest, st, metas, rng =>
    match runOneFixture base_state teams use_nrr i fx st rng with
    | .error e => .error e
    | .ok (st', ms, rng') =>
      runOneLoop base_state teams use_nrr (i + 1) rest st' (metas ++ ms) rng'

/-- `_run_one`: deep-copy the base state (a pure copy here), replay all
fixtures, and return the final ranked table with all metas. The caller's
`base_state` is read, never written. -/
def _run_one (base_state : State) (fixtures : List Fixture) (rng : Rng)
    (use_nrr : Bool) :
    Except String (List SortedRow × List MatchOutcomeMeta × Rng) :=
  let state := _clone_state base_state
  let teams := base_state.map (fun r => r.team)
  match runOneLoop base_state teams use_nrr 0 fixtures state [] rng with
  | .error e => .error e
  | .ok (st, metas, rng') => .ok (compute_sorted_table st, metas, rng')

/-- The requirement summary of `_summarize_overall` (a nested dict in the
source; the constant documentation strings of the dict are omitted). -/
structure OverallSummary where
  confidence : ℚ
  if_win_defend_min_runs_margin : Option Int
  if_win_defend_samples : Nat
  if_win_chase_max_balls_used : Option Int
  if_win_chase_max_overs_used : Option ℚ
  if_win_chase_samples : Nat
  if_win_chase_overshoot_p : Option Int
  if_lose_max_loss_margin_runs : Option Int
  if_lose_samples : Nat
  if_lose_chase_min_runs_scored : Option Int
  if_lose_chase_loss_cases : Nat
  if_lose_chase_runs_samples : Nat
  if_lose_defend_min_opponent_balls_used : Option Int
  if_lose_defend_min_opponent_overs_used : Option ℚ
  if_lose_defend_loss_cases : Nat
  if_lose_defend_balls_samples : Nat

deriving instance DecidableEq, Repr for OverallSummary

/-- `_summarize_overall`: bucket the metas and extract percentile
requirements at the requested confidence. -/
def _summarize_overall (metas : List MatchOutcomeMeta) (confidence : ℚ) :
    OverallSummary :=
  let eligible := metas.filter (fun m =>
    m.played && m.result == some "WIN" && m.won.isSome)
  let win_defend_margins := eligible.filterMap (fun m =>
    if m.won == some true then m.win_margin_runs else none)
  let win_chase_balls := eligible.filterMap (fun m =>
    if m.won == some true then m.chase_balls_used else none)
  let win_chase_overshoot := eligible.filterMap (fun m =>
    if m.won == some true then m.overshoot_runs else none)
  let loss_margins := eligible.filterMap (fun m =>
    if m.won == some false then m.loss_margin_runs else none)
  let lose_chase_runs := eligible.filterMap (fun m =>
    if m.won == some false then m.loss_chase_runs_scored else none)
  let lose_defend_opp_balls := eligible.filterMap (fun m =>
    if m.won == some false then m.loss_defend_opp_balls_used else none)
  let min_win_margin := _percentile win_defend_margins (1 - confidence)
  let max_chase_balls := _percentile win_chase_balls confidence
  let overshoot_p := _percentile win_chase_overshoot confidence
  let max_loss_margin := _percentile loss_margins confidence
  let min_runs_in_chase_loss := _percentile lose_chase_runs (1 - confidence)
  let min_opp_balls_used := _percentile lose_defend_opp_balls (1 - confidence)
  { confidence := confidence
    if_win_defend_min_runs_margin := min_win_margin
    if_win_defend_samples := win_defend_margins.length
    if_win_chase_max_balls_used := max_chase_balls
    if_win_chase_max_overs_used :=
      max_chase_balls.map (fun b => (b : ℚ) / 6)
    if_win_chase_samples := win_chase_balls.length
    if_win_chase_overshoot_p := overshoot_p
    if_lose_max_loss_margin_runs := max_loss_margin
    if_lose_samples := loss_margins.length
    if_lose_chase_min_runs_scored := min_runs_in_chase_loss
    if_lose_chase_loss_cases :=
      (metas.filter (fun x => x.loss_chase_runs_scored.isSome)).length
    if_lose_chase_runs_samples := lose_chase_runs.length
    if_lose_defend_min_opponent_balls_used := min_opp_balls_used
    if_lose_defend_min_opponent_overs_used :=
      min_opp_balls_used.map (fun b => (b : ℚ) / 6)
    if_lose_defend_loss_cases :=
      (metas.filter (fun x => x.loss_defend_opp_balls_used.isSome)).length
    if_lose_defend_balls_samples := lose_defend_opp_balls.length }

/-- `_summarize_per_fixture`: the same summary restricted to each fixture
index, skipping fixtures with no played metas. -/
def _summarize_per_fixture (metas : List MatchOutcomeMeta)
    (confidence : ℚ) : Nat → List Fixture → List (String × OverallSummary)
  | _, [] => []
  | i, fx :: rest =>
    let subset := metas.filter (fun m => m.fixture_index == i && m.played)
    if subset.isEmpty then _summarize_per_fixture metas confidence (i + 1) rest
    else (_fixture_key i fx, _summarize_overall subset confidence) ::
      _summarize_per_fixture metas confidence (i + 1) rest

/-- Per-team block of the planner output. -/
structure TeamRequirements where
  overall : OverallSummary
  per_fixture : List (String × OverallSummary)
  qualified_samples : Nat

deriving instance DecidableEq, Repr for TeamRequirements

/-- Planner output (`monte_carlo_planner` return dict; the constant
`notes` strings are omitted). Association lists are in team order. -/
structure PlannerResult where
  iterations : Int
  seed : Option Int
  use_nrr : Bool
  top4_probability : List (String × ℚ)
  top2_probability : List (String × ℚ)
  focus_team : String
  focus_team_success_rate_top4 : ℚ
  requirements : List (String × TeamRequirements)
  focus_team_requirements : TeamRequirements

deriving instance DecidableEq, Repr for PlannerResult

/-- Bump a counter keyed by team. -/
def bumpCount (counts : List (String × Nat)) (t : String) : List (String × Nat) :=
  counts.map (fun p => if p.1 == t then (p.1, p.2 + 1) else p)

/-- Bump every counter whose key is in the given team list. -/
def bumpCounts (counts : List (String × Nat)) : List String → List (String × Nat)
  | [] => counts
  | t :: rest => bumpCounts (bumpCount counts t) rest

/-- Extend the meta accumulator of each team in `sel` with its metas of
this iteration (`metas_when_team_top4[t].extend(...)`). -/
def extendMetas (acc : List (String × List MatchOutcomeMeta))
    (sel : List String) (all_metas : List MatchOutcomeMeta) :
    List (String × List MatchOutcomeMeta) :=
  acc.map (fun p =>
    if sel.contains p.1 then
      (p.1, p.2 ++ all_metas.filter (fun m => m.team == p.1))
    else p)

/-- The iteration loop of `monte_carlo_planner`. -/
def planLoop (base_state : State) (fixtures : List Fixture) (use_nrr : Bool) :
    Nat → Rng → List (String × Nat) → List (String × Nat) →
    List (String × List MatchOutcomeMeta) →
    Except String (List (String × Nat) × List (String × Nat) ×
      List (String × List MatchOutcomeMeta))
  | 0, _, top4_count, top2_count, metas4 => .ok (top4_count, top2_count, metas4)
  | n + 1, rng, top4_count, top2_count, metas4 =>
    match _run_one base_state fixtures rng use_nrr with
    | .error e => .error e
    | .ok (final_table, all_metas, rng') =>
      let order := final_table.map (fun row => row.team)
      let top4 := order.take 4
      let top2 := order.take 2
      planLoop base_state fixtures use_nrr n rng'
        (bumpCounts top4_count top4) (bumpCounts top2_count top2)
        (extendMetas metas4 top4 all_metas)

/-- Upfront fixture validation of `monte_carlo_planner` (single pass). -/
def validateFixtures (base_state : State) : List Fixture → Option String
  | [] => none
  | fx :: rest =>
    if fx.team1 = fx.team2 then some "Invalid fixture (same team twice)"
    else if (lookupTeam base_state fx.team1).isNone ∨
        (lookupTeam base_state fx.team2).isNone then
      some "Unknown team in fixture"
    else if fx.nr_probability < 0 ∨ fx.tie_probability < 0 then
      some "nr_probability and tie_probability must be >= 0"
    else if 1 < fx.nr_probability + fx.tie_probability then
      some "nr_probability + tie_probability must be <= 1.0"
    else validateFixtures base_state rest

/-- `monte_carlo_planner`: validate, seed one shared generator, run the
iterations sequentially, and aggregate probabilities and percentile
requirements. The first component is the caller-visible base state after
the call (the planner only ever reads it); `world` is the ambient entropy
consumed only when `seed` is `None`. -/
def monte_carlo_planner (base_state : State) (fixtures : List Fixture)
    (focus_team : String) (iterations : Int) (seed : Option Int)
    (use_nrr : Bool) (confidence : ℚ) (world : Nat → ℚ) :
    State × Except String PlannerResult :=
  if (lookupTeam base_state focus_team).isNone then
    (base_state, .error ("Unknown focus_team: " ++ focus_team))
  else if fixtures.isEmpty then
    (base_state, .error "fixtures list is empty")
  else if iterations ≤ 0 then
    (base_state, .error "iterations must be > 0")
  else if ¬ (1/2 ≤ confidence ∧ confidence ≤ 19/20) then
    (base_state, .error "confidence should be between 0.50 and 0.95")
  else
    match validateFixtures base_state fixtures with
    | some e => (base_state, .error e)
    | none =>
      let rng := mkRandom seed world
      let teams := base_state.map (fun r => r.team)
      let top4_count0 := teams.map (fun t => (t, (0 : Nat)))
      let top2_count0 := teams.map (fun t => (t, (0 : Nat)))
      let metas40 := teams.map (fun t => (t, ([] : List MatchOutcomeMeta)))
      match planLoop base_state fixtures use_nrr iterations.toNat rng
          top4_count0 top2_count0 metas40 with
      | .error e => (base_state, .error e)
      | .ok (top4_count, top2_count, metas4) =>
        let countOf := fun (counts : List (String × Nat)) (t : String) =>
          ((counts.find? (fun p => p.1 == t)).map (fun p => p.2)).getD 0
        let top4_prob := teams.map (fun t =>
          (t, ((countOf top4_count t : ℕ) : ℚ) / (iterations : ℚ)))
        let top2_prob := teams.map (fun t =>
          (t, ((countOf top2_count t : ℕ) : ℚ) / (iterations : ℚ)))
        let metasOf := fun (t : String) =>
          ((metas4.find? (fun p => p.1 == t)).map (fun p => p.2)).getD []
        let per_team_requirements := teams.map (fun t =>
          (t, ({ overall := _summarize_overall (metasOf t) confidence
                 per_fixture := _summarize_per_fixture (metasOf t) confidence 0 fixtures
                 qualified_samples := countOf top4_count t } : TeamRequirements)))
        let focus_req :=
          ((per_team_requirements.find? (fun p => p.1 == focus_team)).map
            (fun p => p.2)).getD
            { overall := _summarize_overall [] confidence
              per_fixture := []
              qualified_samples := 0 }
        let probOf := fun (probs : List (String × ℚ)) (t : String) =>
          ((probs.find? (fun p => p.1 == t)).map (fun p => p.2)).getD 0
        (base_state, .ok
          { iterations := iterations
            seed := seed
            use_nrr := use_nrr
            top4_probability := top4_prob
            top2_probability := top2_prob
            focus_team := focus_team
            focus_team_success_rate_top4 := probOf top4_prob focus_team
            requirements := per_team_requirements
            focus_team_requirements := focus_req })

/-! ## Invariants and claim theorems -/

/-- The `TeamRow` bookkeeping invariant of the data model: matches played
split into the four outcome counters, and points follow the standard
scoring rule (win = 2, tie/no-result = 1). -/
def rowInvariant (r : TeamRow) : Prop :=
  r.played = r.won + r.lost + r.nr + r.tied ∧ r.points = 2 * r.won + r.nr + r.tied

/-- A sequence of successfully applied results on a pair of rows; any
raised error aborts the run (`none`). -/
def apply_result_ok_seq : TeamRow → TeamRow → List (String × Option String) →
    Option (TeamRow × TeamRow)
  | a, b, [] => some (a, b)
  | a, b, (res, w) :: rest =>
    match apply_result a b res w with
    | (a', b', none) => apply_result_ok_seq a' b' rest
    | (_, _, some _) => none

/-- Helper: single-call invariant preservation for `apply_result`. -/
theorem apply_result_preserves_invariant (a b : TeamRow) (res : String)
    (w : Option String) (a' b' : TeamRow)
    (h : apply_result a b res w = (a', b', none))
    (ha : rowInvariant a) (hb : rowInvariant b) :
    rowInvariant a' ∧ rowInvariant b' := by
  classical
  unfold apply_result at h
  by_cases hnr : res = "NR"
  · simp only [hnr, if_pos rfl] at h
    obtain ⟨ha1, ha2⟩ := ha
    obtain ⟨hb1, hb2⟩ := hb
    cases h
    constructor <;> constructor <;> simp <;> omega
  · rw [if_neg hnr] at h
    by_cases htie : res = "TIE"
    · simp only [htie, if_pos rfl] at h
      obtain ⟨ha1, ha2⟩ := ha
      obtain ⟨hb1, hb2⟩ := hb
      cases h
      constructor <;> constructor <;> simp <;> omega
    · rw [if_neg htie] at h
      by_cases hwin : res = "WIN"
      · rw [if_neg (by simp [hwin])] at h
        match w with
        | none => simp at h
        | some ww =>
          simp only [] at h
          by_cases hwa : ww = a.team
          · rw [if_pos hwa] at h
            obtain ⟨ha1, ha2⟩ := ha
            obtain ⟨hb1, hb2⟩ := hb
            cases h
            constructor <;> constructor <;> simp <;> omega
          · rw [if_neg hwa] at h
            by_cases hwb : ww = b.team
            · rw [if_pos hwb] at h
              obtain ⟨ha1, ha2⟩ := ha
              obtain ⟨hb1, hb2⟩ := hb
              cases h
              constructor <;> constructor <;> simp <;> omega
            · rw [if_neg hwb] at h
              simp at h
      · rw [if_pos hwin] at h
        simp at h

/-- C6: every successful `apply_result` call preserves the `TeamRow`
invariants `played = won + lost + nr + tied` and
`points = 2*won + nr + tied` on both rows, for WIN, TIE and NR alike, and
hence any sequence of successfully applied results preserves them. -/
theorem claim_C6_apply_result_invariants :
    (∀ (a b : TeamRow) (res : String) (w : Option String) (a' b' : TeamRow),
      apply_result a b res w = (a', b', none) →
      rowInvariant a → rowInvariant b → rowInvariant a' ∧ rowInvariant b') ∧
    (∀ (l : List (String × Option String)) (a b a' b' : TeamRow),
      apply_result_ok_seq a b l = some (a', b') →
      rowInvariant a → rowInvariant b → rowInvariant a' ∧ rowInvariant b') := by
  constructor
  · exact apply_result_preserves_invariant
  · intro l
    induction l with
    | nil =>
      intro a b a' b' h ha hb
      simp only [apply_result_ok_seq] at h
      cases h
      exact ⟨ha, hb⟩
    | cons hd tl ih =>
      intro a b a' b' h ha hb
      simp only [apply_result_ok_seq] at h
      rcases hab : apply_result a b hd.1 hd.2 with ⟨a1, b1, e⟩
      rw [hab] at h
      match e with
      | none =>
        obtain ⟨ha1, hb1⟩ := apply_result_preserves_invariant a b hd.1 hd.2 a1 b1 hab ha hb
        exact ih a1 b1 a' b' h ha1 hb1
      | some msg => simp at h

/-- Concrete rows exercising the C6 theorem. -/
def c6RowA : TeamRow := ⟨"A", 4, 2, 1, 1, 0, 5, ⟨"A", 700, 480, 650, 480⟩⟩

/-- Concrete rows exercising the C6 theorem. -/
def c6RowB : TeamRow := ⟨"B", 3, 1, 2, 0, 0, 2, ⟨"B", 500, 360, 520, 360⟩⟩

instance (r : TeamRow) : Decidable (rowInvariant r) := by
  unfold rowInvariant
  infer_instance

/-- Witness: C6 applied to a concrete WIN, TIE, NR sequence. -/
theorem claim_C6_witness :
    rowInvariant ⟨"A", 7, 2, 2, 2, 1, 7, ⟨"A", 700, 480, 650, 480⟩⟩ ∧
    rowInvariant ⟨"B", 6, 2, 2, 1, 1, 6, ⟨"B", 500, 360, 520, 360⟩⟩ :=
  claim_C6_apply_result_invariants.2
    [("WIN", some "B"), ("TIE", none), ("NR", none)] c6RowA c6RowB _ _
    (by decide) (by decide) (by decide)

/-- C10: `normalize_innings_balls` credits a positive all-out innings as a
full 120-ball innings, passes non-all-out innings through unchanged, and
maps zero balls to zero regardless of the all-out flag. -/
theorem claim_C10_normalize_innings_balls :
    (∀ balls : Int, 0 < balls →
      normalize_innings_balls balls true = .ok 120) ∧
    (∀ balls : Int, 0 ≤ balls →
      normalize_innings_balls balls false = .ok balls) ∧
    (∀ all_out : Bool, normalize_innings_balls 0 all_out = .ok 0) := by
  refine ⟨?_, ?_, ?_⟩
  · intro balls h
    unfold normalize_innings_balls MAX_BALLS_T20
    rw [if_neg (by omega), if_neg (by omega)]
    norm_num
  · intro balls h
    unfold normalize_innings_balls
    rcases eq_or_lt_of_le h with h0 | h0
    · rw [if_neg (by omega), if_pos (by omega)]
      exact congrArg Except.ok h0
    · rw [if_neg (by omega), if_neg (by omega)]
      simp
  · intro all_out
    unfold normalize_innings_balls
    simp

/-- Witness: C10 applied at the spec's concrete inputs 90 and 0. -/
theorem claim_C10_witness :
    normalize_innings_balls 90 true = .ok 120 ∧
    normalize_innings_balls 90 false = .ok 90 ∧
    normalize_innings_balls 0 false = .ok 0 :=
  ⟨claim_C10_normalize_innings_balls.1 90 (by norm_num),
   claim_C10_normalize_innings_balls.2.1 90 (by norm_num),
   claim_C10_normalize_innings_balls.2.2 false⟩

/-! ### String-parsing lemmas for the overs notation (claim C9) -/

/-- An element failing the predicate survives `dropWhile`. -/
theorem mem_dropWhile_of_not (p : Char → Bool) (l : List Char) (c : Char)
    (hc : c ∈ l) (hp : p c = false) : c ∈ l.dropWhile p := by
  induction l with
  | nil => cases hc
  | cons x xs ih =>
    rw [List.dropWhile_cons]
    by_cases hx : p x = true
    · rw [if_pos hx]
      rcases List.mem_cons.mp hc with rfl | hmem
      · rw [hp] at hx
        cases hx
      · exact ih hmem
    · rw [if_neg hx]
      exact hc

/-- `dropWhile` is idempotent. -/
theorem dropWhile_dropWhile (p : Char → Bool) (l : List Char) :
    (l.dropWhile p).dropWhile p = l.dropWhile p := by
  induction l with
  | nil => rfl
  | cons x xs ih =>
    rw [List.dropWhile_cons]
    by_cases hx : p x = true
    · rw [if_pos hx]
      exact ih
    · rw [if_neg hx, List.dropWhile_cons, if_neg hx]

/-- Dropping stops at an element failing the predicate. -/
theorem dropWhile_append_cons (p : Char → Bool) (a b : List Char) (c : Char)
    (hc : p c = false) :
    (a ++ c :: b).dropWhile p = a.dropWhile p ++ c :: b := by
  induction a with
  | nil =>
    simp only [List.nil_append, List.dropWhile_cons, hc]
    simp
  | cons x xs ih =>
    simp only [List.cons_append, List.dropWhile_cons]
    by_cases hx : p x = true
    · rw [if_pos hx, if_pos hx, ih]
    · rw [if_neg hx, if_neg hx, List.cons_append]

/-- A non-space character survives `pyStrip`. -/
theorem mem_pyStrip_of_not_space (l : List Char) (c : Char) (hc : c ∈ l)
    (hp : isSpaceChar c = false) : c ∈ pyStrip l := by
  unfold pyStrip rstripChars lstripChars
  rw [List.mem_reverse]
  refine mem_dropWhile_of_not _ _ _ ?_ hp
  rw [List.mem_reverse]
  exact mem_dropWhile_of_not _ _ _ hc hp

/-- `pyStrip` only removes characters. -/
theorem subset_of_pyStrip (l : List Char) : pyStrip l ⊆ l := by
  intro c hc
  unfold pyStrip rstripChars lstripChars at hc
  rw [List.mem_reverse] at hc
  have h1 := (List.dropWhile_suffix (l := (l.dropWhile isSpaceChar).reverse)
    isSpaceChar).subset hc
  rw [List.mem_reverse] at h1
  exact (List.dropWhile_suffix isSpaceChar).subset h1

/-- A nonempty `lstripChars` result starts with a non-space character. -/
theorem head_lstrip_not_space (l : List Char) (c : Char) (rest : List Char)
    (h : lstripChars l = c :: rest) : isSpaceChar c = false := by
  induction l with
  | nil => cases h
  | cons x xs ih =>
    unfold lstripChars at h ih
    rw [List.dropWhile_cons] at h
    by_cases hx : isSpaceChar x = true
    · rw [if_pos hx] at h
      exact ih h
    · rw [if_neg hx] at h
      cases h
      simpa using hx

/-- `lstripChars` fixes lists that start with a non-space character. -/
theorem lstrip_eq_self_of_head (l : List Char)
    (h : ∀ c rest, l = c :: rest → isSpaceChar c = false) : lstripChars l = l := by
  cases l with
  | nil => rfl
  | cons x xs =>
    unfold lstripChars
    rw [List.dropWhile_cons, if_neg]
    simp [h x xs rfl]

/-- `rstripChars` is a prefix of its argument. -/
theorem rstrip_prefix (l : List Char) : rstripChars l <+: l := by
  unfold rstripChars
  have h := List.reverse_prefix.mpr
    (List.dropWhile_suffix (l := l.reverse) isSpaceChar)
  simpa using h

/-- `rstripChars` is idempotent. -/
theorem rstrip_rstrip (l : List Char) : rstripChars (rstripChars l) = rstripChars l := by
  unfold rstripChars
  rw [List.reverse_reverse, dropWhile_dropWhile]

/-- `pyStrip` is idempotent. -/
theorem pyStrip_pyStrip (l : List Char) : pyStrip (pyStrip l) = pyStrip l := by
  have hls : lstripChars (pyStrip l) = pyStrip l := by
    apply lstrip_eq_self_of_head
    intro c rest hcr
    obtain ⟨t, ht⟩ := rstrip_prefix (lstripChars l)
    unfold pyStrip at hcr
    rw [hcr] at ht
    exact head_lstrip_not_space l c (rest ++ t) (by rw [← ht]; simp)
  unfold pyStrip
  unfold pyStrip at hls
  rw [hls]
  exact rstrip_rstrip _

/-- `pyStrip` after `lstripChars` is plain `pyStrip`. -/
theorem pyStrip_lstrip (l : List Char) : pyStrip (lstripChars l) = pyStrip l := by
  unfold pyStrip lstripChars
  rw [dropWhile_dropWhile]

/-- `rstripChars` keeps a non-space head. -/
theorem rstrip_cons_not_space (x : Char) (xs : List Char)
    (hx : isSpaceChar x = false) :
    rstripChars (x :: xs) = x :: rstripChars xs := by
  unfold rstripChars
  rw [List.reverse_cons, dropWhile_append_cons isSpaceChar xs.reverse [] x hx]
  simp

/-- `rstripChars` on a space head: the head survives iff anything after
it does. -/
theorem rstrip_cons_space (x : Char) (xs : List Char)
    (hx : isSpaceChar x = true) :
    rstripChars (x :: xs) =
      if rstripChars xs = [] then [] else x :: rstripChars xs := by
  unfold rstripChars
  rw [List.reverse_cons, List.dropWhile_append]
  by_cases h : xs.reverse.dropWhile isSpaceChar = []
  · rw [if_pos (by simp [h]), if_pos (by simp [h])]
    simp [List.dropWhile_cons, hx]
  · rw [if_neg (by simp [h]), if_neg (by simp [h])]
    simp

/-- Left and right stripping commute. -/
theorem lstrip_rstrip_comm (l : List Char) :
    lstripChars (rstripChars l) = rstripChars (lstripChars l) := by
  induction l with
  | nil => rfl
  | cons x xs ih =>
    by_cases hx : isSpaceChar x = true
    · rw [rstrip_cons_space x xs hx]
      have hls : lstripChars (x :: xs) = lstripChars xs := by
        unfold lstripChars
        rw [List.dropWhile_cons, if_pos hx]
      rw [hls, ← ih]
      by_cases h0 : rstripChars xs = []
      · rw [if_pos h0, h0]
      · rw [if_neg h0]
        unfold lstripChars
        rw [List.dropWhile_cons, if_pos hx]
    · have hx' : isSpaceChar x = false := by simpa using hx
      rw [rstrip_cons_not_space x xs hx']
      have hls : lstripChars (x :: xs) = x :: xs := by
        unfold lstripChars
        rw [List.dropWhile_cons, if_neg hx]
      have hls2 : lstripChars (x :: rstripChars xs) = x :: rstripChars xs := by
        unfold lstripChars
        rw [List.dropWhile_cons, if_neg hx]
      rw [hls, hls2, rstrip_cons_not_space x xs hx']

/-- `pyStrip` after `rstripChars` is plain `pyStrip`. -/
theorem pyStrip_rstrip (l : List Char) : pyStrip (rstripChars l) = pyStrip l := by
  unfold pyStrip
  rw [lstrip_rstrip_comm, rstrip_rstrip]

/-- `pyStrip` after `lstripChars` is plain `pyStrip` (restated). -/
theorem pyIntChars_lstrip (l : List Char) :
    pyIntChars (lstripChars l) = pyIntChars l := by
  unfold pyIntChars
  rw [pyStrip_lstrip]

/-- `pyIntChars` ignores an outer `pyStrip`. -/
theorem pyIntChars_pyStrip (l : List Char) :
    pyIntChars (pyStrip l) = pyIntChars l := by
  unfold pyIntChars
  rw [pyStrip_pyStrip]

/-- A successful `parseDigits` means every character is a digit. -/
theorem parseDigits_digits (l : List Char) (n : Nat) (h : parseDigits l = some n) :
    l ≠ [] ∧ ∀ c ∈ l, c.isDigit = true := by
  unfold parseDigits at h
  by_cases h0 : l = []
  · rw [if_pos h0] at h
    cases h
  · rw [if_neg h0] at h
    by_cases h1 : l.all Char.isDigit = true
    · exact ⟨h0, List.all_eq_true.mp h1⟩
    · rw [if_neg h1] at h
      cases h

/-- A successful `pyIntChars` leaves a nonempty stripped literal. -/
theorem pyIntChars_some_strip_ne (l : List Char) (v : Int)
    (h : pyIntChars l = some v) : pyStrip l ≠ [] := by
  intro h0
  unfold pyIntChars at h
  rw [h0] at h
  simp [parseDigits] at h

/-- A successfully parsed integer literal contains no dot. -/
theorem pyIntChars_some_no_dot (l : List Char) (v : Int)
    (h : pyIntChars l = some v) : '.' ∉ l := by
  intro hdot
  have hmem : '.' ∈ pyStrip l :=
    mem_pyStrip_of_not_space l '.' hdot (by decide)
  unfold pyIntChars at h
  rcases hs : pyStrip l with _ | ⟨c, rest⟩
  · rw [hs] at hmem
    cases hmem
  · rw [hs] at hmem h
    simp only [List.head?_cons, List.tail_cons] at h
    have hdig : ∀ (m : List Char) (n : Nat), parseDigits m = some n → '.' ∉ m := by
      intro m n hp hm
      have := (parseDigits_digits m n hp).2 '.' hm
      exact absurd this (by decide)
    by_cases hc1 : c = '-'
    · rw [if_pos (by rw [hc1])] at h
      rcases hp : parseDigits rest with _ | n
      · rw [hp] at h
        cases h
      · rcases List.mem_cons.mp hmem with hh | hh
        · rw [hc1] at hh
          cases hh
        · exact hdig rest n hp hh
    · rw [if_neg (by simp [hc1])] at h
      by_cases hc2 : c = '+'
      · rw [if_pos (by rw [hc2])] at h
        rcases hp : parseDigits rest with _ | n
        · rw [hp] at h
          cases h
        · rcases List.mem_cons.mp hmem with hh | hh
          · rw [hc2] at hh
            cases hh
          · exact hdig rest n hp hh
      · rw [if_neg (by simp [hc2])] at h
        rcases hp : parseDigits (c :: rest) with _ | n
        · rw [hp] at h
          cases h
        · exact hdig (c :: rest) n hp hmem

/-- Splitting at an explicit first dot. -/
theorem splitFirstDot_append (a b : List Char) (ha : '.' ∉ a) :
    splitFirstDot (a ++ '.' :: b) = some (a, b) := by
  induction a with
  | nil =>
    simp [splitFirstDot]
  | cons x xs ih =>
    have hx : x ≠ '.' := fun hx => ha (hx ▸ List.mem_cons_self x xs)
    have hxs : '.' ∉ xs := fun hm => ha (List.mem_cons_of_mem x hm)
    rw [List.cons_append]
    unfold splitFirstDot
    rw [if_neg hx, ih hxs]

/-- No dot, no split. -/
theorem splitFirstDot_none (l : List Char) (hl : '.' ∉ l) :
    splitFirstDot l = none := by
  induction l with
  | nil => rfl
  | cons x xs ih =>
    have hx : x ≠ '.' := fun hx => hl (hx ▸ List.mem_cons_self x xs)
    have hxs : '.' ∉ xs := fun hm => hl (List.mem_cons_of_mem x hm)
    simp only [splitFirstDot]
    rw [if_neg hx, ih hxs]

/-- Right-stripping stops at a non-space separator. -/
theorem rstrip_append_cons (a b : List Char) (c : Char)
    (hc : isSpaceChar c = false) :
    rstripChars (a ++ c :: b) = a ++ c :: rstripChars b := by
  unfold rstripChars
  rw [show (a ++ c :: b).reverse = b.reverse ++ c :: a.reverse by simp,
    dropWhile_append_cons isSpaceChar b.reverse a.reverse c hc]
  simp

/-- `pyStrip` around an explicit dot separator. -/
theorem pyStrip_append_dot (ws ds : List Char) :
    pyStrip (ws ++ '.' :: ds) = lstripChars ws ++ '.' :: rstripChars ds := by
  unfold pyStrip
  rw [show lstripChars (ws ++ '.' :: ds) = lstripChars ws ++ '.' :: ds from
    dropWhile_append_cons isSpaceChar ws ds '.' (by decide)]
  exact rstrip_append_cons (lstripChars ws) ds '.' (by decide)

/-- `lstripChars` only removes characters. -/
theorem subset_of_lstrip (l : List Char) : lstripChars l ⊆ l :=
  (List.dropWhile_suffix isSpaceChar).subset

/-- A nonempty `pyStrip` forces a nonempty `lstripChars`. -/
theorem lstrip_ne_nil_of_pyStrip (l : List Char) (h : pyStrip l ≠ []) :
    lstripChars l ≠ [] := by
  intro h0
  unfold pyStrip at h
  rw [h0] at h
  exact h rfl

/-- Evaluation normal form of `overs_to_balls` on a string with an
explicit first dot: the whole part gets Python `int` semantics with the
empty-part zero default, the ball part is stripped and parsed the same
way, and the negativity/range checks run in source order. -/
theorem overs_to_balls_dotted (ws ds : List Char) (hdot : '.' ∉ ws) :
    overs_to_balls ⟨ws ++ '.' :: ds⟩ =
      (match (if lstripChars ws = [] then some (0 : Int) else pyIntChars ws) with
       | none => .error "invalid integer literal in overs part"
       | some ov_i =>
         match (if pyStrip ds = [] then some (0 : Int) else pyIntChars ds) with
         | none => .error "invalid integer literal in balls part"
         | some balls_i =>
           if ov_i < 0 then .error "Invalid overs"
           else if balls_i < 0 ∨ 5 < balls_i then
             .error "Invalid overs format (balls part must be 0-5)"
           else .ok (ov_i * 6 + balls_i)) := by
  have hdata : (String.mk (ws ++ '.' :: ds)).data = ws ++ '.' :: ds := rfl
  unfold overs_to_balls
  rw [hdata, pyStrip_append_dot]
  have hdot' : '.' ∉ lstripChars ws := fun hm => hdot (subset_of_lstrip ws hm)
  unfold oversToBallsChars
  rw [if_neg (by simp), splitFirstDot_append (lstripChars ws) (rstripChars ds) hdot']
  dsimp only
  rw [pyIntChars_lstrip, pyStrip_rstrip]
  have hball : pyIntChars (pyStrip ds) = pyIntChars ds := pyIntChars_pyStrip ds
  rw [hball]

/-- Evaluation normal form of `overs_to_balls` on a dot-free string. -/
theorem overs_to_balls_plain (ws : List Char) (hdot : '.' ∉ ws) :
    overs_to_balls ⟨ws⟩ =
      (if pyStrip ws = [] then .error "Overs cannot be empty"
       else
         match pyIntChars ws with
         | none => .error "invalid integer literal in overs"
         | some ov_i =>
           if ov_i < 0 then .error "Invalid overs" else .ok (ov_i * 6)) := by
  have hdata : (String.mk ws).data = ws := rfl
  unfold overs_to_balls
  rw [hdata]
  by_cases h0 : pyStrip ws = []
  · rw [if_pos h0]
    unfold oversToBallsChars
    rw [if_pos h0]
  · rw [if_neg h0]
    have hdot' : '.' ∉ pyStrip ws := fun hm => hdot (subset_of_pyStrip ws hm)
    unfold oversToBallsChars
    rw [if_neg h0, splitFirstDot_none (pyStrip ws) hdot', pyIntChars_pyStrip]

/-- C9: `overs_to_balls` maps "20" to 120 and "19.4" to 118 (whole overs
times 6 plus the fractional digit), and fails with an error whenever the
fractional part parses to a value above 5 or below 0, the whole-overs
part parses to a negative value (dotted or plain form), or the
whole-overs part is nonempty and non-numeric. -/
theorem claim_C9_overs_to_balls :
    overs_to_balls "20" = .ok 120 ∧
    overs_to_balls "19.4" = .ok 118 ∧
    (∀ (ws ds : List Char) (dv : Int), '.' ∉ ws → pyIntChars ds = some dv →
      5 < dv → ∃ msg, overs_to_balls ⟨ws ++ '.' :: ds⟩ = .error msg) ∧
    (∀ (ws ds : List Char) (dv : Int), '.' ∉ ws → pyIntChars ds = some dv →
      dv < 0 → ∃ msg, overs_to_balls ⟨ws ++ '.' :: ds⟩ = .error msg) ∧
    (∀ (ws ds : List Char) (wv : Int), pyIntChars ws = some wv → wv < 0 →
      ∃ msg, overs_to_balls ⟨ws ++ '.' :: ds⟩ = .error msg) ∧
    (∀ (ws : List Char) (wv : Int), pyIntChars ws = some wv → wv < 0 →
      ∃ msg, overs_to_balls ⟨ws⟩ = .error msg) ∧
    (∀ (ws ds : List Char), '.' ∉ ws → pyIntChars ws = none →
      lstripChars ws ≠ [] → ∃ msg, overs_to_balls ⟨ws ++ '.' :: ds⟩ = .error msg) ∧
    (∀ (ws : List Char), '.' ∉ ws → pyIntChars ws = none →
      ∃ msg, overs_to_balls ⟨ws⟩ = .error msg) := by
  refine ⟨by with_unfolding_all decide, by with_unfolding_all decide,
    ?_, ?_, ?_, ?_, ?_, ?_⟩
  · intro ws ds dv hdot hds h5
    rw [overs_to_balls_dotted ws ds hdot]
    have hball : pyStrip ds ≠ [] := pyIntChars_some_strip_ne ds dv hds
    rcases hw : (if lstripChars ws = [] then some (0 : Int) else pyIntChars ws)
      with _ | ov_i
    · exact ⟨_, rfl⟩
    · rw [if_neg hball, hds]
      dsimp only
      by_cases hov : ov_i < 0
      · rw [if_pos hov]
        exact ⟨_, rfl⟩
      · rw [if_neg hov, if_pos (Or.inr h5)]
        exact ⟨_, rfl⟩
  · intro ws ds dv hdot hds h5
    rw [overs_to_balls_dotted ws ds hdot]
    have hball : pyStrip ds ≠ [] := pyIntChars_some_strip_ne ds dv hds
    rcases hw : (if lstripChars ws = [] then some (0 : Int) else pyIntChars ws)
      with _ | ov_i
    · exact ⟨_, rfl⟩
    · rw [if_neg hball, hds]
      dsimp only
      by_cases hov : ov_i < 0
      · rw [if_pos hov]
        exact ⟨_, rfl⟩
      · rw [if_neg hov, if_pos (Or.inl h5)]
        exact ⟨_, rfl⟩
  · intro ws ds wv hws hneg
    have hdot : '.' ∉ ws := pyIntChars_some_no_dot ws wv hws
    rw [overs_to_balls_dotted ws ds hdot]
    have hls : lstripChars ws ≠ [] :=
      lstrip_ne_nil_of_pyStrip ws (pyIntChars_some_strip_ne ws wv hws)
    rw [if_neg hls, hws]
    dsimp only
    rcases hb : (if pyStrip ds = [] then some (0 : Int) else pyIntChars ds)
      with _ | bv
    · exact ⟨_, rfl⟩
    · dsimp only
      rw [if_pos hneg]
      exact ⟨_, rfl⟩
  · intro ws wv hws hneg
    have hdot : '.' ∉ ws := pyIntChars_some_no_dot ws wv hws
    rw [overs_to_balls_plain ws hdot,
      if_neg (pyIntChars_some_strip_ne ws wv hws), hws]
    dsimp only
    rw [if_pos hneg]
    exact ⟨_, rfl⟩
  · intro ws ds hdot hws hls
    rw [overs_to_balls_dotted ws ds hdot, if_neg hls, hws]
    exact ⟨_, rfl⟩
  · intro ws hdot hws
    rw [overs_to_balls_plain ws hdot]
    by_cases h0 : pyStrip ws = []
    · rw [if_pos h0]
      exact ⟨_, rfl⟩
    · rw [if_neg h0, hws]
      exact ⟨_, rfl⟩

/-- Witness: C9's fractional-digit clause at the concrete input "19.6". -/
theorem claim_C9_witness :
    ∃ msg, overs_to_balls ⟨['1', '9'] ++ '.' :: ['6']⟩ = .error msg :=
  claim_C9_overs_to_balls.2.2.1 ['1', '9'] ['6'] 6 (by decide) (by decide)
    (by norm_num)

/-! ### Specification lemmas for `apply_result` and `simulate_match` -/

/-- The NR update of one row. -/
def nrRow (r : TeamRow) : TeamRow :=
  { r with played := r.played + 1, nr := r.nr + 1, points := r.points + 1 }

/-- The TIE update of one row. -/
def tieRow (r : TeamRow) : TeamRow :=
  { r with played := r.played + 1, tied := r.tied + 1, points := r.points + 1 }

/-- The winning-side update of one row. -/
def winRow (r : TeamRow) : TeamRow :=
  { r with played := r.played + 1, won := r.won + 1, points := r.points + 2 }

/-- The losing-side update of one row. -/
def loseRow (r : TeamRow) : TeamRow :=
  { r with played := r.played + 1, lost := r.lost + 1 }

/-- The partial update left behind by a failing `apply_result` call. -/
def playedRow (r : TeamRow) : TeamRow :=
  { r with played := r.played + 1 }

/-- One completed innings pair added onto an aggregate. -/
def addInnings (a : TeamAggregate) (rf bf ra ba : Int) : TeamAggregate :=
  { a with
    runs_for := a.runs_for + rf
    balls_for := a.balls_for + bf
    runs_against := a.runs_against + ra
    balls_against := a.balls_against + ba }

theorem apply_result_nr (a b : TeamRow) :
    apply_result a b "NR" none = (nrRow a, nrRow b, none) := by
  unfold apply_result nrRow
  simp

theorem apply_result_tie (a b : TeamRow) :
    apply_result a b "TIE" none = (tieRow a, tieRow b, none) := by
  unfold apply_result tieRow
  simp

theorem apply_result_win_a (a b : TeamRow) (w : String) (hw : w = a.team) :
    apply_result a b "WIN" (some w) = (winRow a, loseRow b, none) := by
  unfold apply_result winRow loseRow
  simp [hw]

theorem apply_result_win_b (a b : TeamRow) (w : String) (hwa : w ≠ a.team)
    (hwb : w = b.team) :
    apply_result a b "WIN" (some w) = (loseRow a, winRow b, none) := by
  unfold apply_result winRow loseRow
  rw [if_neg (by decide : ¬ ("WIN" = "NR")), if_neg (by decide : ¬ ("WIN" = "TIE")),
    if_neg (by decide : ¬ ("WIN" ≠ "WIN"))]
  dsimp only
  rw [if_neg hwa, if_pos hwb]

theorem apply_result_win_bad (a b : TeamRow) (w : String) (hwa : w ≠ a.team)
    (hwb : w ≠ b.team) :
    apply_result a b "WIN" (some w) =
      (playedRow a, playedRow b, some "winner must be either team A or team B") := by
  unfold apply_result playedRow
  simp [hwa, hwb]

theorem apply_result_win_none (a b : TeamRow) :
    apply_result a b "WIN" none =
      (playedRow a, playedRow b, some "winner is required when result=WIN") := by
  unfold apply_result playedRow
  simp

theorem normalize_pos (b : Int) (ao : Bool) (h : 0 < b) :
    normalize_innings_balls b ao = .ok (if ao then MAX_BALLS_T20 else b) := by
  unfold normalize_innings_balls
  rw [if_neg (by omega), if_neg (by omega)]

theorem apply_match_batting_first_override (a1 a2 : TeamAggregate)
    (t1r : Int) (t1o : String) (t2r : Int) (t2o : String) (b1 b2 : Int)
    (h1 : 0 < b1) (h2 : 0 < b2) :
    apply_match_batting_first a1 a2 t1r t1o t2r t2o (some b1) (some b2) =
      .ok (addInnings a1 t1r b1 t2r b2, addInnings a2 t2r b2 t1r b1) := by
  unfold apply_match_batting_first addInnings
  dsimp only
  rw [if_neg (by omega)]

/-- `lookupTeam` returns a row carrying the looked-up key. -/
theorem lookupTeam_team (st : State) (t : String) (r : TeamRow)
    (h : lookupTeam st t = some r) : r.team = t := by
  have := List.find?_some h
  simpa using this

/-- `lookupTeam` returns a member of the state. -/
theorem lookupTeam_mem (st : State) (t : String) (r : TeamRow)
    (h : lookupTeam st t = some r) : r ∈ st :=
  List.mem_of_find?_eq_some h

/-- Writing the same key twice keeps only the second write. -/
theorem updateRow_updateRow_same (st : State) (t : String) (r r' : TeamRow)
    (hr : r.team = t) :
    updateRow (updateRow st t r) t r' = updateRow st t r' := by
  unfold updateRow
  rw [List.map_map]
  apply List.map_congr_left
  intro x _
  simp only [Function.comp_apply]
  by_cases hx : (x.team == t) = true
  · simp [hx, show (r.team == t) = true by simp [hr]]
  · simp [hx]

/-- Writes under distinct keys commute when neither row carries the
other key. -/
theorem updateRow_comm (st : State) (t1 t2 : String) (a b : TeamRow)
    (hne : t1 ≠ t2) (hat : a.team ≠ t2) (hbt : b.team ≠ t1) :
    updateRow (updateRow st t2 b) t1 a = updateRow (updateRow st t1 a) t2 b := by
  unfold updateRow
  rw [List.map_map, List.map_map]
  apply List.map_congr_left
  intro x _
  simp only [Function.comp_apply]
  by_cases hx2 : (x.team == t2) = true
  · by_cases hx1 : (x.team == t1) = true
    · exact absurd (by
        have h1 : x.team = t1 := by simpa using hx1
        have h2 : x.team = t2 := by simpa using hx2
        rw [← h1, h2]) hne
    · simp [hx1, hx2, show ¬ (b.team == t1) = true by simpa using hbt]
  · by_cases hx1 : (x.team == t1) = true
    · simp [hx1, hx2, show ¬ (a.team == t2) = true by simpa using hat]
    · simp [hx1, hx2]

/-- Collapse the aggregate write followed by the bookkeeping write of one
simulated match into a single write per team. -/
theorem updateRow_quad_collapse (st : State) (t1 t2 : String)
    (a b c d : TeamRow) (hat : a.team = t1) (hbt : b.team = t2)
    (hct : c.team = t1) (_hdt : d.team = t2) (hne : t1 ≠ t2) :
    updateRow (updateRow (updateRow (updateRow st t1 a) t2 b) t1 c) t2 d =
      updateRow (updateRow st t1 c) t2 d := by
  rw [updateRow_comm (updateRow st t1 a) t1 t2 c b hne
    (by rw [hct]; exact hne) (by rw [hbt]; exact hne.symm)]
  rw [updateRow_updateRow_same st t1 a c hat]
  rw [updateRow_updateRow_same (updateRow st t1 c) t2 b d hbt]

/-- The NR path of `simulate_match`: points split, aggregates untouched. -/
theorem simulate_match_nr (st : State) (t1 t2 : String) (row1 row2 : TeamRow)
    (hl1 : lookupTeam st t1 = some row1) (hl2 : lookupTeam st t2 = some row2)
    (hne : t1 ≠ t2) :
    simulate_match st t1 t2 none none none none false false "NR" none =
      (updateRow (updateRow st t1 (nrRow row1)) t2 (nrRow row2),
       .ok (compute_sorted_table
         (updateRow (updateRow st t1 (nrRow row1)) t2 (nrRow row2)))) := by
  unfold simulate_match
  rw [hl1, hl2]
  dsimp only
  rw [if_neg hne, if_pos rfl, apply_result_nr]

/-- The innings prelude of `simulateInnings`: both overs parse, both
normalized ball counts are positive, so the aggregates are written before
the result branch runs. -/
theorem simulateInnings_eval (st : State) (t1 t2 : String) (row1 row2 : TeamRow)
    (t1r : Int) (o1 : String) (t2r : Int) (o2 : String) (ao1 ao2 : Bool)
    (result : String) (b1 b2 : Int)
    (hb1 : overs_to_balls o1 = .ok b1) (hb2 : overs_to_balls o2 = .ok b2)
    (hpos1 : 0 < b1) (hpos2 : 0 < b2) :
    simulateInnings st t1 t2 row1 row2 t1r o1 t2r o2 ao1 ao2 result =
      (let n1 := if ao1 then MAX_BALLS_T20 else b1
       let n2 := if ao2 then MAX_BALLS_T20 else b2
       let row1A := { row1 with agg := addInnings row1.agg t1r n1 t2r n2 }
       let row2A := { row2 with agg := addInnings row2.agg t2r n2 t1r n1 }
       let stA := updateRow (updateRow st t1 row1A) t2 row2A
       if result = "TIE" then
         if t1r ≠ t2r then
           (stA, .error "result=TIE requires equal scores when innings are provided")
         else
           match apply_result row1A row2A "TIE" none with
           | (r1, r2, _) =>
             let stB := updateRow (updateRow stA t1 r1) t2 r2
             (stB, .ok (compute_sorted_table stB))
       else if result ≠ "WIN" then
         (stA, .error "Invalid result")
       else
         if t2r < t1r then
           match apply_result row1A row2A "WIN" (some t1) with
           | (r1, r2, none) =>
             let stB := updateRow (updateRow stA t1 r1) t2 r2
             (stB, .ok (compute_sorted_table stB))
           | (r1, r2, some e) =>
             (updateRow (updateRow stA t1 r1) t2 r2, .error e)
         else if t1r < t2r then
           match apply_result row1A row2A "WIN" (some t2) with
           | (r1, r2, none) =>
             let stB := updateRow (updateRow stA t1 r1) t2 r2
             (stB, .ok (compute_sorted_table stB))
           | (r1, r2, some e) =>
             (updateRow (updateRow stA t1 r1) t2 r2, .error e)
         else
           (stA, .error "Scores are tied; use result=TIE")) := by
  have hn1 : 0 < (if ao1 then MAX_BALLS_T20 else b1) := by
    unfold MAX_BALLS_T20
    split <;> omega
  have hn2 : 0 < (if ao2 then MAX_BALLS_T20 else b2) := by
    unfold MAX_BALLS_T20
    split <;> omega
  unfold simulateInnings
  rw [hb1, hb2]
  dsimp only
  rw [normalize_pos b1 ao1 hpos1, normalize_pos b2 ao2 hpos2]
  dsimp only
  rw [apply_match_batting_first_override row1.agg row2.agg t1r o1 t2r o2 _ _ hn1 hn2]

/-- Entering the innings path of `simulate_match`. -/
theorem simulate_match_innings (st : State) (t1 t2 : String) (row1 row2 : TeamRow)
    (t1r : Int) (o1 : String) (t2r : Int) (o2 : String) (ao1 ao2 : Bool)
    (result : String) (winner : Option String)
    (hl1 : lookupTeam st t1 = some row1) (hl2 : lookupTeam st t2 = some row2)
    (hne : t1 ≠ t2) (hres : result ≠ "NR") :
    simulate_match st t1 t2 (some t1r) (some o1) (some t2r) (some o2) ao1 ao2
        result winner =
      simulateInnings st t1 t2 row1 row2 t1r o1 t2r o2 ao1 ao2 result := by
  unfold simulate_match
  rw [hl1, hl2]
  dsimp only
  rw [if_neg hne, if_neg hres]

/-- Entering the no-innings path of `simulate_match` (first innings runs
missing). -/
theorem simulate_match_no_innings (st : State) (t1 t2 : String)
    (row1 row2 : TeamRow) (o1 : Option String) (t2r : Option Int)
    (o2 : Option String) (ao1 ao2 : Bool) (result : String)
    (winner : Option String)
    (hl1 : lookupTeam st t1 = some row1) (hl2 : lookupTeam st t2 = some row2)
    (hne : t1 ≠ t2) (hres : result ≠ "NR") :
    simulate_match st t1 t2 none o1 t2r o2 ao1 ao2 result winner =
      simulateNoInnings st t1 t2 row1 row2 result winner := by
  unfold simulate_match
  rw [hl1, hl2]
  dsimp only
  rw [if_neg hne, if_neg hres]

/-- Concrete two-team state used by the C1 counterexample and witness. -/
def c1RowA : TeamRow := ⟨"A", 0, 0, 0, 0, 0, 16, ⟨"A", 1, 30, 0, 0⟩⟩

/-- Concrete two-team state used by the C1 counterexample and witness. -/
def c1RowB : TeamRow := ⟨"B", 0, 0, 0, 0, 0, 16, ⟨"B", 1, 60, 0, 0⟩⟩

/-- Concrete two-team state used by the C1 counterexample and witness. -/
def c1State : State := [c1RowA, c1RowB]

/-- Counterexample to C1 as stated: a TIE declared with unequal supplied
scores does raise a domain-rule error, but the state visible to the
caller is NOT unchanged — both teams' aggregates were already updated
before the equal-scores check ran. -/
theorem claim_C1_counterexample :
    (simulate_match c1State "A" "B" (some 180) (some "20.0") (some 150)
        (some "20.0") false false "TIE" none).2.isOk = false ∧
    (simulate_match c1State "A" "B" (some 180) (some "20.0") (some 150)
        (some "20.0") false false "TIE" none).1 ≠ c1State := by
  decide

/-- C1 amended: the domain-rule errors are raised as the claim states,
but the state is only unchanged for a WIN with no innings data and no
winner. For a TIE with innings data and unequal runs, and for a WIN with
innings data and equal scores (no derivable winner), both teams'
aggregates have already been updated when the error is raised; for a WIN
with an invalid supplied winner (and directly for `apply_result` with a
missing or invalid winner) both teams' `played` counters have already
been incremented. -/
theorem claim_C1_amended :
    (∀ (st : State) (t1 t2 : String) (row1 row2 : TeamRow) (t1r t2r b1 b2 : Int)
       (o1 o2 : String) (ao1 ao2 : Bool),
      lookupTeam st t1 = some row1 → lookupTeam st t2 = some row2 → t1 ≠ t2 →
      overs_to_balls o1 = .ok b1 → overs_to_balls o2 = .ok b2 →
      0 < b1 → 0 < b2 → t1r ≠ t2r →
      ∃ msg, simulate_match st t1 t2 (some t1r) (some o1) (some t2r) (some o2)
          ao1 ao2 "TIE" none =
        (updateRow (updateRow st t1
            { row1 with agg := addInnings row1.agg t1r (if ao1 then MAX_BALLS_T20 else b1) t2r (if ao2 then MAX_BALLS_T20 else b2) }) t2
            { row2 with agg := addInnings row2.agg t2r (if ao2 then MAX_BALLS_T20 else b2) t1r (if ao1 then MAX_BALLS_T20 else b1) },
         .error msg)) ∧
    (∀ (st : State) (t1 t2 : String) (row1 row2 : TeamRow) (t1r t2r b1 b2 : Int)
       (o1 o2 : String) (ao1 ao2 : Bool) (w : Option String),
      lookupTeam st t1 = some row1 → lookupTeam st t2 = some row2 → t1 ≠ t2 →
      overs_to_balls o1 = .ok b1 → overs_to_balls o2 = .ok b2 →
      0 < b1 → 0 < b2 → t1r = t2r →
      ∃ msg, simulate_match st t1 t2 (some t1r) (some o1) (some t2r) (some o2)
          ao1 ao2 "WIN" w =
        (updateRow (updateRow st t1
            { row1 with agg := addInnings row1.agg t1r (if ao1 then MAX_BALLS_T20 else b1) t2r (if ao2 then MAX_BALLS_T20 else b2) }) t2
            { row2 with agg := addInnings row2.agg t2r (if ao2 then MAX_BALLS_T20 else b2) t1r (if ao1 then MAX_BALLS_T20 else b1) },
         .error msg)) ∧
    (∀ (st : State) (t1 t2 : String) (row1 row2 : TeamRow)
       (o1 : Option String) (t2rr : Option Int) (o2 : Option String)
       (ao1 ao2 : Bool),
      lookupTeam st t1 = some row1 → lookupTeam st t2 = some row2 → t1 ≠ t2 →
      ∃ msg, simulate_match st t1 t2 none o1 t2rr o2 ao1 ao2 "WIN" none =
        (st, .error msg)) ∧
    (∀ (st : State) (t1 t2 : String) (row1 row2 : TeamRow)
       (o1 : Option String) (t2rr : Option Int) (o2 : Option String)
       (ao1 ao2 : Bool) (w : String),
      lookupTeam st t1 = some row1 → lookupTeam st t2 = some row2 → t1 ≠ t2 →
      w ≠ t1 → w ≠ t2 →
      ∃ msg, simulate_match st t1 t2 none o1 t2rr o2 ao1 ao2 "WIN" (some w) =
        (updateRow (updateRow st t1 (playedRow row1)) t2 (playedRow row2),
         .error msg)) ∧
    (∀ a b : TeamRow,
      ∃ msg, apply_result a b "WIN" none = (playedRow a, playedRow b, some msg)) ∧
    (∀ (a b : TeamRow) (w : String), w ≠ a.team → w ≠ b.team →
      ∃ msg, apply_result a b "WIN" (some w) =
        (playedRow a, playedRow b, some msg)) := by
  refine ⟨?_, ?_, ?_, ?_, ?_, ?_⟩
  · intro st t1 t2 row1 row2 t1r t2r b1 b2 o1 o2 ao1 ao2 hl1 hl2 hne hb1 hb2
      hp1 hp2 hrt
    rw [simulate_match_innings st t1 t2 row1 row2 t1r o1 t2r o2 ao1 ao2 "TIE"
      none hl1 hl2 hne (by decide)]
    rw [simulateInnings_eval st t1 t2 row1 row2 t1r o1 t2r o2 ao1 ao2 "TIE"
      b1 b2 hb1 hb2 hp1 hp2]
    dsimp only
    rw [if_pos rfl, if_pos hrt]
    exact ⟨_, rfl⟩
  · intro st t1 t2 row1 row2 t1r t2r b1 b2 o1 o2 ao1 ao2 w hl1 hl2 hne hb1 hb2
      hp1 hp2 hrt
    rw [simulate_match_innings st t1 t2 row1 row2 t1r o1 t2r o2 ao1 ao2 "WIN"
      w hl1 hl2 hne (by decide)]
    rw [simulateInnings_eval st t1 t2 row1 row2 t1r o1 t2r o2 ao1 ao2 "WIN"
      b1 b2 hb1 hb2 hp1 hp2]
    dsimp only
    rw [if_neg (by decide : ¬ ("WIN" = "TIE")),
      if_neg (by decide : ¬ ("WIN" ≠ "WIN")),
      if_neg (by omega : ¬ t2r < t1r), if_neg (by omega : ¬ t1r < t2r)]
    exact ⟨_, rfl⟩
  · intro st t1 t2 row1 row2 o1 t2rr o2 ao1 ao2 hl1 hl2 hne
    rw [simulate_match_no_innings st t1 t2 row1 row2 o1 t2rr o2 ao1 ao2 "WIN"
      none hl1 hl2 hne (by decide)]
    unfold simulateNoInnings
    rw [if_neg (by decide : ¬ ("WIN" = "TIE")),
      if_neg (by decide : ¬ ("WIN" ≠ "WIN"))]
    exact ⟨_, rfl⟩
  · intro st t1 t2 row1 row2 o1 t2rr o2 ao1 ao2 w hl1 hl2 hne hw1 hw2
    rw [simulate_match_no_innings st t1 t2 row1 row2 o1 t2rr o2 ao1 ao2 "WIN"
      (some w) hl1 hl2 hne (by decide)]
    unfold simulateNoInnings
    rw [if_neg (by decide : ¬ ("WIN" = "TIE")),
      if_neg (by decide : ¬ ("WIN" ≠ "WIN"))]
    dsimp only
    rw [apply_result_win_bad row1 row2 w
      (by rw [lookupTeam_team st t1 row1 hl1]; exact hw1)
      (by rw [lookupTeam_team st t2 row2 hl2]; exact hw2)]
    exact ⟨_, rfl⟩
  · intro a b
    exact ⟨_, apply_result_win_none a b⟩
  · intro a b w hwa hwb
    exact ⟨_, apply_result_win_bad a b w hwa hwb⟩

/-- Witness: the amended C1 at the concrete TIE-with-unequal-scores call. -/
theorem claim_C1_witness :
    ∃ msg, simulate_match c1State "A" "B" (some 180) (some "20.0") (some 150)
        (some "20.0") false false "TIE" none =
      (updateRow (updateRow c1State "A"
          { c1RowA with agg := addInnings c1RowA.agg 180 120 150 120 }) "B"
          { c1RowB with agg := addInnings c1RowB.agg 150 120 180 120 },
       .error msg) :=
  claim_C1_amended.1 c1State "A" "B" c1RowA c1RowB 180 150 120 120
    "20.0" "20.0" false false (by decide) (by decide) (by decide) (by decide)
    (by decide) (by norm_num) (by norm_num) (by norm_num)

/-- Shared success-path lemma: WIN with full innings and team1 scoring
strictly more. The winner argument is ignored. -/
theorem simulate_win_t1 (st : State) (t1 t2 : String) (row1 row2 : TeamRow)
    (t1r t2r b1 b2 : Int) (o1 o2 : String) (ao1 ao2 : Bool) (w : Option String)
    (hl1 : lookupTeam st t1 = some row1) (hl2 : lookupTeam st t2 = some row2)
    (hne : t1 ≠ t2) (hb1 : overs_to_balls o1 = .ok b1)
    (hb2 : overs_to_balls o2 = .ok b2) (hp1 : 0 < b1) (hp2 : 0 < b2)
    (hgt : t2r < t1r) :
    simulate_match st t1 t2 (some t1r) (some o1) (some t2r) (some o2) ao1 ao2
        "WIN" w =
      (updateRow (updateRow st t1
          (winRow { row1 with agg := addInnings row1.agg t1r (if ao1 then MAX_BALLS_T20 else b1) t2r (if ao2 then MAX_BALLS_T20 else b2) })) t2
          (loseRow { row2 with agg := addInnings row2.agg t2r (if ao2 then MAX_BALLS_T20 else b2) t1r (if ao1 then MAX_BALLS_T20 else b1) }),
       .ok (compute_sorted_table (updateRow (updateRow st t1
          (winRow { row1 with agg := addInnings row1.agg t1r (if ao1 then MAX_BALLS_T20 else b1) t2r (if ao2 then MAX_BALLS_T20 else b2) })) t2
          (loseRow { row2 with agg := addInnings row2.agg t2r (if ao2 then MAX_BALLS_T20 else b2) t1r (if ao1 then MAX_BALLS_T20 else b1) })))) := by
  rw [simulate_match_innings st t1 t2 row1 row2 t1r o1 t2r o2 ao1 ao2 "WIN"
    w hl1 hl2 hne (by decide)]
  rw [simulateInnings_eval st t1 t2 row1 row2 t1r o1 t2r o2 ao1 ao2 "WIN"
    b1 b2 hb1 hb2 hp1 hp2]
  dsimp only
  rw [if_neg (by decide : ¬ ("WIN" = "TIE")),
    if_neg (by decide : ¬ ("WIN" ≠ "WIN")), if_pos hgt]
  generalize hR1 : ({ row1 with agg := addInnings row1.agg t1r (if ao1 then MAX_BALLS_T20 else b1) t2r (if ao2 then MAX_BALLS_T20 else b2) } : TeamRow) = R1
  generalize hR2 : ({ row2 with agg := addInnings row2.agg t2r (if ao2 then MAX_BALLS_T20 else b2) t1r (if ao1 then MAX_BALLS_T20 else b1) } : TeamRow) = R2
  have ht1 : R1.team = t1 := by
    rw [← hR1]
    exact lookupTeam_team st t1 row1 hl1
  have ht2 : R2.team = t2 := by
    rw [← hR2]
    exact lookupTeam_team st t2 row2 hl2
  rw [apply_result_win_a R1 R2 t1 ht1.symm]
  dsimp only
  rw [updateRow_quad_collapse st t1 t2 R1 R2 (winRow R1) (loseRow R2)
    ht1 ht2 ht1 ht2 hne]

/-- Shared success-path lemma: WIN with full innings and team2 scoring
strictly more. -/
theorem simulate_win_t2 (st : State) (t1 t2 : String) (row1 row2 : TeamRow)
    (t1r t2r b1 b2 : Int) (o1 o2 : String) (ao1 ao2 : Bool) (w : Option String)
    (hl1 : lookupTeam st t1 = some row1) (hl2 : lookupTeam st t2 = some row2)
    (hne : t1 ≠ t2) (hb1 : overs_to_balls o1 = .ok b1)
    (hb2 : overs_to_balls o2 = .ok b2) (hp1 : 0 < b1) (hp2 : 0 < b2)
    (hgt : t1r < t2r) :
    simulate_match st t1 t2 (some t1r) (some o1) (some t2r) (some o2) ao1 ao2
        "WIN" w =
      (updateRow (updateRow st t1
          (loseRow { row1 with agg := addInnings row1.agg t1r (if ao1 then MAX_BALLS_T20 else b1) t2r (if ao2 then MAX_BALLS_T20 else b2) })) t2
          (winRow { row2 with agg := addInnings row2.agg t2r (if ao2 then MAX_BALLS_T20 else b2) t1r (if ao1 then MAX_BALLS_T20 else b1) }),
       .ok (compute_sorted_table (updateRow (updateRow st t1
          (loseRow { row1 with agg := addInnings row1.agg t1r (if ao1 then MAX_BALLS_T20 else b1) t2r (if ao2 then MAX_BALLS_T20 else b2) })) t2
          (winRow { row2 with agg := addInnings row2.agg t2r (if ao2 then MAX_BALLS_T20 else b2) t1r (if ao1 then MAX_BALLS_T20 else b1) })))) := by
  rw [simulate_match_innings st t1 t2 row1 row2 t1r o1 t2r o2 ao1 ao2 "WIN"
    w hl1 hl2 hne (by decide)]
  rw [simulateInnings_eval st t1 t2 row1 row2 t1r o1 t2r o2 ao1 ao2 "WIN"
    b1 b2 hb1 hb2 hp1 hp2]
  dsimp only
  rw [if_neg (by decide : ¬ ("WIN" = "TIE")),
    if_neg (by decide : ¬ ("WIN" ≠ "WIN")), if_neg (by omega : ¬ t2r < t1r),
    if_pos hgt]
  generalize hR1 : ({ row1 with agg := addInnings row1.agg t1r (if ao1 then MAX_BALLS_T20 else b1) t2r (if ao2 then MAX_BALLS_T20 else b2) } : TeamRow) = R1
  generalize hR2 : ({ row2 with agg := addInnings row2.agg t2r (if ao2 then MAX_BALLS_T20 else b2) t1r (if ao1 then MAX_BALLS_T20 else b1) } : TeamRow) = R2
  have ht1 : R1.team = t1 := by
    rw [← hR1]
    exact lookupTeam_team st t1 row1 hl1
  have ht2 : R2.team = t2 := by
    rw [← hR2]
    exact lookupTeam_team st t2 row2 hl2
  rw [apply_result_win_b R1 R2 t2 (by rw [ht1]; exact hne.symm) ht2.symm]
  dsimp only
  rw [updateRow_quad_collapse st t1 t2 R1 R2 (loseRow R1) (winRow R2)
    ht1 ht2 ht1 ht2 hne]

/-- C3: for a WIN with full innings data on two distinct known teams, the
win goes to whichever side scored strictly more runs, regardless of any
winner argument passed, and both teams' aggregates are updated
symmetrically with the supplied runs and all-out-normalized balls: the
final state gives the winner a won/points-2 update and the loser a lost
update, with runs-for/balls-for and runs-against/balls-against added in
lockstep on both rows. -/
theorem claim_C3_win_derivation :
    (∀ (st : State) (t1 t2 : String) (row1 row2 : TeamRow) (t1r t2r b1 b2 : Int)
       (o1 o2 : String) (ao1 ao2 : Bool) (w : Option String),
      lookupTeam st t1 = some row1 → lookupTeam st t2 = some row2 → t1 ≠ t2 →
      overs_to_balls o1 = .ok b1 → overs_to_balls o2 = .ok b2 →
      0 < b1 → 0 < b2 → t2r < t1r →
      simulate_match st t1 t2 (some t1r) (some o1) (some t2r) (some o2) ao1 ao2
          "WIN" w =
        (updateRow (updateRow st t1
            (winRow { row1 with agg := addInnings row1.agg t1r (if ao1 then MAX_BALLS_T20 else b1) t2r (if ao2 then MAX_BALLS_T20 else b2) })) t2
            (loseRow { row2 with agg := addInnings row2.agg t2r (if ao2 then MAX_BALLS_T20 else b2) t1r (if ao1 then MAX_BALLS_T20 else b1) }),
         .ok (compute_sorted_table (updateRow (updateRow st t1
            (winRow { row1 with agg := addInnings row1.agg t1r (if ao1 then MAX_BALLS_T20 else b1) t2r (if ao2 then MAX_BALLS_T20 else b2) })) t2
            (loseRow { row2 with agg := addInnings row2.agg t2r (if ao2 then MAX_BALLS_T20 else b2) t1r (if ao1 then MAX_BALLS_T20 else b1) }))))) ∧
    (∀ (st : State) (t1 t2 : String) (row1 row2 : TeamRow) (t1r t2r b1 b2 : Int)
       (o1 o2 : String) (ao1 ao2 : Bool) (w : Option String),
      lookupTeam st t1 = some row1 → lookupTeam st t2 = some row2 → t1 ≠ t2 →
      overs_to_balls o1 = .ok b1 → overs_to_balls o2 = .ok b2 →
      0 < b1 → 0 < b2 → t1r < t2r →
      simulate_match st t1 t2 (some t1r) (some o1) (some t2r) (some o2) ao1 ao2
          "WIN" w =
        (updateRow (updateRow st t1
            (loseRow { row1 with agg := addInnings row1.agg t1r (if ao1 then MAX_BALLS_T20 else b1) t2r (if ao2 then MAX_BALLS_T20 else b2) })) t2
            (winRow { row2 with agg := addInnings row2.agg t2r (if ao2 then MAX_BALLS_T20 else b2) t1r (if ao1 then MAX_BALLS_T20 else b1) }),
         .ok (compute_sorted_table (updateRow (updateRow st t1
            (loseRow { row1 with agg := addInnings row1.agg t1r (if ao1 then MAX_BALLS_T20 else b1) t2r (if ao2 then MAX_BALLS_T20 else b2) })) t2
            (winRow { row2 with agg := addInnings row2.agg t2r (if ao2 then MAX_BALLS_T20 else b2) t1r (if ao1 then MAX_BALLS_T20 else b1) }))))) := by
  constructor
  · intro st t1 t2 row1 row2 t1r t2r b1 b2 o1 o2 ao1 ao2 w hl1 hl2 hne hb1 hb2
      hp1 hp2 hgt
    exact simulate_win_t1 st t1 t2 row1 row2 t1r t2r b1 b2 o1 o2 ao1 ao2 w
      hl1 hl2 hne hb1 hb2 hp1 hp2 hgt
  · intro st t1 t2 row1 row2 t1r t2r b1 b2 o1 o2 ao1 ao2 w hl1 hl2 hne hb1 hb2
      hp1 hp2 hgt
    exact simulate_win_t2 st t1 t2 row1 row2 t1r t2r b1 b2 o1 o2 ao1 ao2 w
      hl1 hl2 hne hb1 hb2 hp1 hp2 hgt

/-- Witness: C3 at the spec's concrete call (180 vs 150, full 20-over
innings, no all-out): team1 gains the win, aggregates grow by runs
180/150 and balls 120/120 on the appropriate sides. -/
theorem claim_C3_witness :
    simulate_match c1State "A" "B" (some 180) (some "20.0") (some 150)
        (some "20.0") false false "WIN" none =
      (updateRow (updateRow c1State "A"
          (winRow { c1RowA with agg := addInnings c1RowA.agg 180 120 150 120 })) "B"
          (loseRow { c1RowB with agg := addInnings c1RowB.agg 150 120 180 120 }),
       .ok (compute_sorted_table (updateRow (updateRow c1State "A"
          (winRow { c1RowA with agg := addInnings c1RowA.agg 180 120 150 120 })) "B"
          (loseRow { c1RowB with agg := addInnings c1RowB.agg 150 120 180 120 })))) :=
  claim_C3_win_derivation.1 c1State "A" "B" c1RowA c1RowB 180 150 120 120
    "20.0" "20.0" false false none (by decide) (by decide) (by decide)
    (by decide) (by decide) (by norm_num) (by norm_num) (by norm_num)

/-! ### Frame lemmas for the NR path and the all-NR planner run (claim C4) -/

/-- The field-by-field clone is complete: it reproduces the state. -/
theorem _clone_state_eq (st : State) : _clone_state st = st := by
  unfold _clone_state
  have h : (fun r : TeamRow =>
      ({ team := r.team, played := r.played, won := r.won, lost := r.lost,
         nr := r.nr, tied := r.tied, points := r.points,
         agg := { team := r.agg.team, runs_for := r.agg.runs_for,
                  balls_for := r.agg.balls_for,
                  runs_against := r.agg.runs_against,
                  balls_against := r.agg.balls_against } } : TeamRow)) = id := by
    funext r
    rfl
  rw [h, List.map_id]

/-- The team code and the four aggregate counters of a row. -/
def rowAggNums (r : TeamRow) : String × Int × Int × Int × Int :=
  (r.team, r.agg.runs_for, r.agg.balls_for, r.agg.runs_against, r.agg.balls_against)

/-- The team code and the four aggregate counters of an output record. -/
def entryAggNums (e : SortedRow) : String × Int × Int × Int × Int :=
  (e.team, e.runs_for, e.balls_for, e.runs_against, e.balls_against)

/-- Writing an absent key is a no-op. -/
theorem updateRow_id_of_not_mem (st : State) (t : String) (r : TeamRow)
    (h : ∀ y ∈ st, y.team ≠ t) : updateRow st t r = st := by
  unfold updateRow
  conv_rhs => rw [← List.map_id st]
  apply List.map_congr_left
  intro x hx
  simp [h x hx]

/-- A write whose row agrees with the stored row under a projection
leaves the projected state unchanged (teams assumed unique). -/
theorem map_proj_updateRow {β : Type} (f : TeamRow → β) (st : State)
    (t : String) (r row : TeamRow) (hl : lookupTeam st t = some row)
    (hnd : (st.map TeamRow.team).Nodup) (hf : f r = f row) :
    (updateRow st t r).map f = st.map f := by
  induction st with
  | nil => cases hl
  | cons x xs ih =>
    rw [List.map_cons] at hnd
    by_cases hx : ((fun r : TeamRow => r.team == t) x) = true
    · have hfind : lookupTeam (x :: xs) t = some x := by
        unfold lookupTeam
        exact List.find?_cons_of_pos xs hx
      rw [hfind] at hl
      injection hl with hxr
      subst hxr
      have hxt : x.team = t := by simpa using hx
      have hnomem : ∀ y ∈ xs, y.team ≠ t := by
        intro y hy hyt
        have : x.team ∈ xs.map TeamRow.team := by
          rw [hxt, ← hyt]
          exact List.mem_map_of_mem TeamRow.team hy
        exact (List.nodup_cons.mp hnd).1 this
      have hrest : updateRow xs t r = xs := updateRow_id_of_not_mem xs t r hnomem
      unfold updateRow
      rw [List.map_map, List.map_cons, List.map_cons]
      congr 1
      · simp only [Function.comp_apply, if_pos hx, hf]
      · rw [← List.map_map]
        unfold updateRow at hrest
        rw [hrest]
    · have hfind : lookupTeam (x :: xs) t = lookupTeam xs t := by
        unfold lookupTeam
        exact List.find?_cons_of_neg xs hx
      rw [hfind] at hl
      unfold updateRow
      rw [List.map_map, List.map_cons, List.map_cons]
      congr 1
      · simp only [Function.comp_apply]
        rw [if_neg hx]
      · rw [← List.map_map]
        have := ih hl (List.nodup_cons.mp hnd).2
        unfold updateRow at this
        rw [this]

/-- `lookupTeam` presence only depends on the stored team codes. -/
theorem lookupTeam_isSome_of_map_team (st st' : State) (t : String)
    (h : st.map TeamRow.team = st'.map TeamRow.team) :
    (lookupTeam st t).isSome = (lookupTeam st' t).isSome := by
  unfold lookupTeam
  have hiff : (∃ x ∈ st, (x.team == t) = true) ↔ ∃ x ∈ st', (x.team == t) = true := by
    constructor
    · intro ⟨x, hx, hxt⟩
      have : x.team ∈ st'.map TeamRow.team := by
        rw [← h]
        exact List.mem_map_of_mem TeamRow.team hx
      obtain ⟨y, hy, hyt⟩ := List.mem_map.mp this
      exact ⟨y, hy, by rw [hyt]; exact hxt⟩
    · intro ⟨x, hx, hxt⟩
      have : x.team ∈ st.map TeamRow.team := by
        rw [h]
        exact List.mem_map_of_mem TeamRow.team hx
      obtain ⟨y, hy, hyt⟩ := List.mem_map.mp this
      exact ⟨y, hy, by rw [hyt]; exact hxt⟩
  have hiff2 : (st.find? (fun r => r.team == t)).isSome = true ↔
      (st'.find? (fun r => r.team == t)).isSome = true := by
    rw [List.find?_isSome, List.find?_isSome]
    exact hiff
  cases hb : (st.find? (fun r => r.team == t)).isSome
  · cases hb' : (st'.find? (fun r => r.team == t)).isSome
    · rfl
    · exact absurd (hiff2.mpr hb') (by simp [hb])
  · rw [hiff2.mp hb]

/-- Looking up a different key ignores a write whose row does not carry
that key. -/
theorem lookupTeam_updateRow_ne (st : State) (t : String) (r : TeamRow)
    (t' : String) (ht : t' ≠ t) (hr : r.team ≠ t') :
    lookupTeam (updateRow st t r) t' = lookupTeam st t' := by
  induction st with
  | nil => rfl
  | cons x xs ih =>
    unfold updateRow at ih ⊢
    unfold lookupTeam at ih ⊢
    rw [List.map_cons]
    by_cases hx : (x.team == t) = true
    · rw [if_pos hx]
      have hxt : x.team = t := by simpa using hx
      rw [List.find?_cons_of_neg _ (by simpa using hr),
        List.find?_cons_of_neg _ (by
          simp only [beq_iff_eq]
          rw [hxt]
          exact fun h => ht h.symm)]
      exact ih
    · rw [if_neg hx]
      by_cases hx' : ((fun q : TeamRow => q.team == t') x) = true
      · rw [@List.find?_cons_of_pos TeamRow (fun q => q.team == t') x
            (List.map (fun y => if (y.team == t) = true then r else y) xs) hx',
          @List.find?_cons_of_pos TeamRow (fun q => q.team == t') x xs hx']
      · rw [@List.find?_cons_of_neg TeamRow (fun q => q.team == t') x
            (List.map (fun y => if (y.team == t) = true then r else y) xs) hx',
          @List.find?_cons_of_neg TeamRow (fun q => q.team == t') x xs hx']
        exact ih

/-- Draws of the abstract generator stay in `[0, 1)`. -/
def StreamOk (s : Nat → ℚ) : Prop :=
  ∀ n, 0 ≤ s n ∧ s n < 1

/-- The batting order is one of the two orientations of the fixture. -/
theorem resolve_fst (fx : Fixture) (rng : Rng) :
    (_resolve_batting_order fx rng).1 = (fx.team1, fx.team2) ∨
      (_resolve_batting_order fx rng).1 = (fx.team2, fx.team1) := by
  unfold _resolve_batting_order Rng.random
  by_cases h1 : fx.batting_first_mode = "team1"
  · rw [if_pos h1]
    exact Or.inl rfl
  · rw [if_neg h1]
    by_cases h2 : fx.batting_first_mode = "team2"
    · rw [if_pos h2]
      exact Or.inr rfl
    · rw [if_neg h2]
      dsimp only
      by_cases h3 : rng.stream rng.idx < 1/2
      · rw [if_pos h3]
        exact Or.inl rfl
      · rw [if_neg h3]
        exact Or.inr rfl

/-- Resolving the batting order does not change the draw stream. -/
theorem resolve_stream (fx : Fixture) (rng : Rng) :
    (_resolve_batting_order fx rng).2.stream = rng.stream := by
  unfold _resolve_batting_order Rng.random
  by_cases h1 : fx.batting_first_mode = "team1"
  · rw [if_pos h1]
  · rw [if_neg h1]
    by_cases h2 : fx.batting_first_mode = "team2"
    · rw [if_pos h2]
    · rw [if_neg h2]

/-- With `nr_probability = 1` every draw below 1 samples NO-RESULT. -/
theorem sample_nr (fx : Fixture) (rng : Rng) (h1 : fx.nr_probability = 1)
    (hu : rng.stream rng.idx < 1) :
    _sample_result fx rng = ("NR", { rng with idx := rng.idx + 1 }) := by
  unfold _sample_result Rng.random
  dsimp only
  rw [h1, if_pos hu]

/-- The NR metas always build successfully (no overs string is parsed). -/
theorem buildMetas_nr (i : Nat) (fx : Fixture) (bf bs : String)
    (teams : List String) :
    ∃ ms, buildMetas i fx bf bs "NR" none none none none (some 0) teams =
      .ok ms := by
  induction teams with
  | nil => exact ⟨[], rfl⟩
  | cons t ts ih =>
    obtain ⟨ms, hms⟩ := ih
    have hmeta : ∃ m, _make_team_meta i fx t bf bs "NR" none none none none
        (some 0) = .ok m := by
      by_cases hp : t = fx.team1 ∨ t = fx.team2
      · refine ⟨{ fixture_index := i, fixture := fx, team := t, played := true, batted_first := some (decide (t = bf)), result := some "NR" }, ?_⟩
        unfold _make_team_meta
        simp [hp]
      · refine ⟨{ fixture_index := i, fixture := fx, team := t, played := false, result := some "NR" }, ?_⟩
        unfold _make_team_meta
        simp [hp]
    obtain ⟨m, hm⟩ := hmeta
    unfold buildMetas
    rw [hm, hms]
    exact ⟨m :: ms, rfl⟩

/-- Team-code projection of the aggregate-numbers projection. -/
theorem map_team_of_map_rowAggNums (st st' : State)
    (h : st.map rowAggNums = st'.map rowAggNums) :
    st.map TeamRow.team = st'.map TeamRow.team := by
  have hfun : Prod.fst ∘ rowAggNums = TeamRow.team := funext fun r => rfl
  have h2 : (st.map rowAggNums).map Prod.fst = (st'.map rowAggNums).map Prod.fst := by
    rw [h]
  rw [List.map_map, List.map_map] at h2
  rw [hfun] at h2
  exact h2

/-- One all-NR fixture step: it succeeds and leaves the aggregate numbers
of every team exactly as in the base state. -/
theorem runOneFixture_nr (base : State) (teams : List String) (u : Bool)
    (i : Nat) (fx : Fixture) (st : State) (rng : Rng)
    (hne : fx.team1 ≠ fx.team2)
    (hl1 : (lookupTeam base fx.team1).isSome = true)
    (hl2 : (lookupTeam base fx.team2).isSome = true)
    (hnr : fx.nr_probability = 1) (htie : fx.tie_probability = 0)
    (hst : st.map rowAggNums = base.map rowAggNums)
    (hndb : (base.map TeamRow.team).Nodup)
    (hrok : StreamOk rng.stream) :
    ∃ st' ms rng', runOneFixture base teams u i fx st rng = .ok (st', ms, rng') ∧
      st'.map rowAggNums = base.map rowAggNums ∧ rng'.stream = rng.stream := by
  have hmapteam : st.map TeamRow.team = base.map TeamRow.team :=
    map_team_of_map_rowAggNums st base hst
  have hnds : (st.map TeamRow.team).Nodup := by
    rw [hmapteam]
    exact hndb
  rcases hro : _resolve_batting_order fx rng with ⟨⟨bf, bs⟩, rng1⟩
  have hbfbs : (bf = fx.team1 ∧ bs = fx.team2) ∨ (bf = fx.team2 ∧ bs = fx.team1) := by
    have h := resolve_fst fx rng
    rw [hro] at h
    simpa using h
  have hrng1 : rng1.stream = rng.stream := by
    have h := resolve_stream fx rng
    rw [hro] at h
    exact h
  have hbfne : bf ≠ bs := by
    rcases hbfbs with ⟨h1, h2⟩ | ⟨h1, h2⟩
    · rw [h1, h2]
      exact hne
    · rw [h1, h2]
      exact hne.symm
  have hlbf : (lookupTeam st bf).isSome = true := by
    rw [lookupTeam_isSome_of_map_team st base bf hmapteam]
    rcases hbfbs with ⟨h1, _⟩ | ⟨h1, _⟩ <;> rw [h1] <;> assumption
  have hlbs : (lookupTeam st bs).isSome = true := by
    rw [lookupTeam_isSome_of_map_team st base bs hmapteam]
    rcases hbfbs with ⟨_, h2⟩ | ⟨_, h2⟩ <;> rw [h2] <;> assumption
  obtain ⟨rowBf, hrowBf⟩ := Option.isSome_iff_exists.mp hlbf
  obtain ⟨rowBs, hrowBs⟩ := Option.isSome_iff_exists.mp hlbs
  have hsamp : _sample_result fx rng1 = ("NR", { rng1 with idx := rng1.idx + 1 }) :=
    sample_nr fx rng1 hnr (by
      rw [show rng1.stream = rng.stream from hrng1]
      exact (hrok rng1.idx).2)
  obtain ⟨ms, hms⟩ := buildMetas_nr i fx bf bs teams
  obtain ⟨rb1, hrb1⟩ := Option.isSome_iff_exists.mp hl1
  obtain ⟨rb2, hrb2⟩ := Option.isSome_iff_exists.mp hl2
  unfold runOneFixture
  rw [if_neg hne]
  rw [if_neg (show ¬ ((lookupTeam base fx.team1).isNone = true ∨
      (lookupTeam base fx.team2).isNone = true) by
    rw [hrb1, hrb2]
    simp)]
  rw [if_neg (show ¬ (fx.nr_probability < 0 ∨ fx.tie_probability < 0) by
    rw [hnr, htie]
    norm_num)]
  rw [if_neg (show ¬ (1 : ℚ) < fx.nr_probability + fx.tie_probability by
    rw [hnr, htie]
    norm_num)]
  rw [hro]
  dsimp only
  rw [hsamp]
  dsimp only
  rw [if_pos rfl]
  rw [simulate_match_nr st bf bs rowBf rowBs hrowBf hrowBs hbfne]
  dsimp only
  rw [hms]
  refine ⟨_, ms, _, rfl, ?_, ?_⟩
  · have hbfteam : (nrRow rowBf).team ≠ bs := by
      show rowBf.team ≠ bs
      rw [lookupTeam_team st bf rowBf hrowBf]
      exact hbfne
    have hlook2 : lookupTeam (updateRow st bf (nrRow rowBf)) bs = some rowBs := by
      rw [lookupTeam_updateRow_ne st bf (nrRow rowBf) bs hbfne.symm hbfteam]
      exact hrowBs
    have hmt1 : (updateRow st bf (nrRow rowBf)).map TeamRow.team =
        st.map TeamRow.team :=
      map_proj_updateRow TeamRow.team st bf (nrRow rowBf) rowBf hrowBf hnds rfl
    have hag1 : (updateRow st bf (nrRow rowBf)).map rowAggNums =
        st.map rowAggNums :=
      map_proj_updateRow rowAggNums st bf (nrRow rowBf) rowBf hrowBf hnds rfl
    have hnds1 : ((updateRow st bf (nrRow rowBf)).map TeamRow.team).Nodup := by
      rw [hmt1]
      exact hnds
    have hag2 : (updateRow (updateRow st bf (nrRow rowBf)) bs
        (nrRow rowBs)).map rowAggNums =
        (updateRow st bf (nrRow rowBf)).map rowAggNums :=
      map_proj_updateRow rowAggNums (updateRow st bf (nrRow rowBf)) bs
        (nrRow rowBs) rowBs hlook2 hnds1 rfl
    rw [hag2, hag1, hst]
  · exact hrng1

/-- The fixture loop preserves the aggregate numbers when every fixture
is a certain NO-RESULT. -/
theorem runOneLoop_nr (base : State) (teams : List String) (u : Bool)
    (fxs : List Fixture) :
    ∀ (i : Nat) (st : State) (metas : List MatchOutcomeMeta) (rng : Rng),
    (∀ fx ∈ fxs, fx.team1 ≠ fx.team2 ∧
      (lookupTeam base fx.team1).isSome = true ∧
      (lookupTeam base fx.team2).isSome = true ∧
      fx.nr_probability = 1 ∧ fx.tie_probability = 0) →
    (base.map TeamRow.team).Nodup →
    st.map rowAggNums = base.map rowAggNums → StreamOk rng.stream →
    ∃ st' ms rng', runOneLoop base teams u i fxs st metas rng = .ok (st', ms, rng') ∧
      st'.map rowAggNums = base.map rowAggNums := by
  induction fxs with
  | nil =>
    intro i st metas rng _ _ hst _
    exact ⟨st, metas, rng, rfl, hst⟩
  | cons fx rest ih =>
    intro i st metas rng hfx hndb hst hrok
    obtain ⟨h1, h2, h3, h4, h5⟩ := hfx fx (List.mem_cons_self fx rest)
    obtain ⟨st1, ms1, rng1, hrun, hst1, hrng1⟩ :=
      runOneFixture_nr base teams u i fx st rng h1 h2 h3 h4 h5 hst hndb hrok
    unfold runOneLoop
    rw [hrun]
    exact ih (i + 1) st1 (metas ++ ms1) rng1
      (fun g hg => hfx g (List.mem_cons_of_mem fx hg)) hndb hst1
      (by rw [show rng1.stream = rng.stream from hrng1]; exact hrok)

/-- Ranked-table records carry exactly the rows' aggregate numbers. -/
theorem withPos_map_entryAggNums (k : Nat) (l : List TeamRow) :
    (withPos k l).map entryAggNums = l.map rowAggNums := by
  induction l generalizing k with
  | nil => rfl
  | cons r rest ih =>
    unfold withPos
    rw [List.map_cons, List.map_cons, ih]
    rfl

/-- C4: a NO-RESULT outcome through `simulate_match` only splits points —
the four aggregate counters of every team are untouched — and therefore a
Monte Carlo run whose fixtures all carry `nr_probability = 1` keeps the
running aggregates exactly equal to the seed aggregates in every
iteration: the final ranked table of `_run_one` carries precisely the
base state's aggregate numbers. -/
theorem claim_C4_nr_preserves_aggregates :
    (∀ (st : State) (t1 t2 : String) (row1 row2 : TeamRow),
      lookupTeam st t1 = some row1 → lookupTeam st t2 = some row2 → t1 ≠ t2 →
      (st.map TeamRow.team).Nodup →
      simulate_match st t1 t2 none none none none false false "NR" none =
        (updateRow (updateRow st t1 (nrRow row1)) t2 (nrRow row2),
         .ok (compute_sorted_table
           (updateRow (updateRow st t1 (nrRow row1)) t2 (nrRow row2)))) ∧
      (simulate_match st t1 t2 none none none none false false
          "NR" none).1.map rowAggNums = st.map rowAggNums) ∧
    (∀ (base : State) (fixtures : List Fixture) (rng : Rng) (u : Bool),
      (∀ fx ∈ fixtures, fx.team1 ≠ fx.team2 ∧
        (lookupTeam base fx.team1).isSome = true ∧
        (lookupTeam base fx.team2).isSome = true ∧
        fx.nr_probability = 1 ∧ fx.tie_probability = 0) →
      (base.map TeamRow.team).Nodup → StreamOk rng.stream →
      ∃ table ms rng', _run_one base fixtures rng u = .ok (table, ms, rng') ∧
        (table.map entryAggNums).Perm (base.map rowAggNums)) := by
  have hproj : ∀ (st : State) (t1 t2 : String) (row1 row2 : TeamRow),
      lookupTeam st t1 = some row1 → lookupTeam st t2 = some row2 → t1 ≠ t2 →
      (st.map TeamRow.team).Nodup →
      (updateRow (updateRow st t1 (nrRow row1)) t2 (nrRow row2)).map rowAggNums =
        st.map rowAggNums := by
    intro st t1 t2 row1 row2 hl1 hl2 hne hnd
    have hteam : (nrRow row1).team ≠ t2 := by
      show row1.team ≠ t2
      rw [lookupTeam_team st t1 row1 hl1]
      exact hne
    have hlook2 : lookupTeam (updateRow st t1 (nrRow row1)) t2 = some row2 := by
      rw [lookupTeam_updateRow_ne st t1 (nrRow row1) t2 hne.symm hteam]
      exact hl2
    have hmt1 : (updateRow st t1 (nrRow row1)).map TeamRow.team =
        st.map TeamRow.team :=
      map_proj_updateRow TeamRow.team st t1 (nrRow row1) row1 hl1 hnd rfl
    have hag1 : (updateRow st t1 (nrRow row1)).map rowAggNums =
        st.map rowAggNums :=
      map_proj_updateRow rowAggNums st t1 (nrRow row1) row1 hl1 hnd rfl
    have hnds1 : ((updateRow st t1 (nrRow row1)).map TeamRow.team).Nodup := by
      rw [hmt1]
      exact hnd
    have hag2 := map_proj_updateRow rowAggNums (updateRow st t1 (nrRow row1))
      t2 (nrRow row2) row2 hlook2 hnds1 rfl
    rw [hag2, hag1]
  constructor
  · intro st t1 t2 row1 row2 hl1 hl2 hne hnd
    have hsim := simulate_match_nr st t1 t2 row1 row2 hl1 hl2 hne
    refine ⟨hsim, ?_⟩
    rw [hsim]
    exact hproj st t1 t2 row1 row2 hl1 hl2 hne hnd
  · intro base fixtures rng u hfx hndb hrok
    unfold _run_one
    rw [_clone_state_eq]
    obtain ⟨st', ms, rng', hloop, hst'⟩ :=
      runOneLoop_nr base (base.map (fun r => r.team)) u fixtures 0 base [] rng
        hfx hndb rfl hrok
    dsimp only
    rw [hloop]
    refine ⟨_, ms, rng', rfl, ?_⟩
    unfold compute_sorted_table
    rw [withPos_map_entryAggNums]
    have h2 := (List.perm_insertionSort tableRel st').map rowAggNums
    rw [hst'] at h2
    exact h2

/-- Fixture with a certain NO-RESULT used by the C4 witness. -/
def c4Fixture : Fixture := ⟨"A", "B", "toss", 1, 0⟩

/-- Constant-zero draw stream used by the C4 witness. -/
def c4Rng : Rng := ⟨fun _ => 0, 0⟩

/-- Witness: C4 on a two-team state with one certain-NR fixture. -/
theorem claim_C4_witness :
    ∃ table ms rng', _run_one c1State [c4Fixture] c4Rng true =
        .ok (table, ms, rng') ∧
      (table.map entryAggNums).Perm (c1State.map rowAggNums) :=
  claim_C4_nr_preserves_aggregates.2 c1State [c4Fixture] c4Rng true
    (by
      intro fx hfx
      rw [List.mem_singleton] at hfx
      subst hfx
      exact ⟨by decide, by decide, by decide, rfl, rfl⟩)
    (by decide)
    (fun n => ⟨by simp [c4Rng], by simp [c4Rng]⟩)

/-- C7: the Monte Carlo planner and all three threshold solvers never
mutate the caller-supplied base state: in the state-passing embedding the
caller-visible state component returned by each entry point equals the
input state on every path, because every simulation runs on a private
copy — and the field-by-field `_clone_state` copy is complete, so that
private copy starts exactly equal to the base state. -/
theorem claim_C7_base_state_never_mutated :
    (∀ (base : State) (a b c : String) (target cb : Int),
      (chase_loss_min_score base a b c target cb).1 = base) ∧
    (∀ (base : State) (a b c : String) (score ob : Int),
      (defend_win_max_opp_score base a b c score ob).1 = base) ∧
    (∀ (base : State) (a b c : String) (target : Int),
      (chase_win_max_balls base a b c target).1 = base) ∧
    (∀ (base : State) (fixtures : List Fixture) (focus : String)
       (iterations : Int) (seed : Option Int) (u : Bool) (conf : ℚ)
       (world : Nat → ℚ),
      (monte_carlo_planner base fixtures focus iterations seed u conf world).1 =
        base) ∧
    (∀ st : State, _clone_state st = st) := by
  refine ⟨?_, ?_, ?_, ?_, _clone_state_eq⟩
  · intro base a b c target cb
    unfold chase_loss_min_score
    dsimp only
    repeat' split
    all_goals rfl
  · intro base a b c score ob
    unfold defend_win_max_opp_score
    dsimp only
    repeat' split
    all_goals rfl
  · intro base a b c target
    unfold chase_win_max_balls
    dsimp only
    repeat' split
    all_goals rfl
  · intro base fixtures focus iterations seed u conf world
    unfold monte_carlo_planner
    dsimp only
    repeat' split
    all_goals rfl

/-- C8: `monte_carlo_planner` is deterministic under a fixed seed — with
any non-`None` seed, the ambient entropy source is never consulted, so
two runs with the same seed, base state, fixtures and parameters produce
identical outputs (including every probability and requirement field). -/
theorem claim_C8_planner_deterministic_under_seed
    (base : State) (fixtures : List Fixture) (focus : String)
    (iterations : Int) (s : Int) (u : Bool) (conf : ℚ)
    (world1 world2 : Nat → ℚ) :
    monte_carlo_planner base fixtures focus iterations (some s) u conf world1 =
      monte_carlo_planner base fixtures focus iterations (some s) u conf world2 := by
  unfold monte_carlo_planner mkRandom
  rfl

/-! ### Ranked-table ordering (claim C2) -/

/-- Default record used with `List.getD` on ranked tables. -/
def dummySortedRow : SortedRow := mkSortedRow 0 ⟨"", 0, 0, 0, 0, 0, 0, ⟨"", 0, 0, 0, 0⟩⟩

/-- Default row used with `List.getD` on row lists. -/
def dummyTeamRow : TeamRow := ⟨"", 0, 0, 0, 0, 0, 0, ⟨"", 0, 0, 0, 0⟩⟩

/-- Net run rate recomputed from the raw aggregate fields carried by an
output record. -/
def entryNrr (e : SortedRow) : ℚ :=
  run_rate e.runs_for e.balls_for - run_rate e.runs_against e.balls_against

/-- `withPos` has the length of its input. -/
theorem withPos_length (k : Nat) (l : List TeamRow) :
    (withPos k l).length = l.length := by
  induction l generalizing k with
  | nil => rfl
  | cons r rest ih =>
    unfold withPos
    rw [List.length_cons, List.length_cons, ih]

/-- Entry `i` of `withPos k l` renders row `i` at position `k + i`. -/
theorem withPos_getD (k : Nat) (l : List TeamRow) (i : Nat) (h : i < l.length) :
    (withPos k l).getD i dummySortedRow =
      mkSortedRow (k + i) (l.getD i dummyTeamRow) := by
  induction l generalizing k i with
  | nil => cases h
  | cons r rest ih =>
    cases i with
    | zero =>
      unfold withPos
      rfl
    | succ n =>
      unfold withPos
      rw [List.getD_cons_succ, List.getD_cons_succ]
      rw [ih (k + 1) n (by simpa using h)]
      congr 1
      omega

/-- Stripping positions from `withPos` recovers the plain rendering. -/
theorem withPos_map_strip (k : Nat) (l : List TeamRow) :
    (withPos k l).map (fun e => { e with pos := 0 }) = l.map (mkSortedRow 0) := by
  induction l generalizing k with
  | nil => rfl
  | cons r rest ih =>
    unfold withPos
    rw [List.map_cons, List.map_cons, ih]
    rfl

/-- The points carried by an output record are the row's points. -/
theorem mkSortedRow_points (k : Nat) (r : TeamRow) :
    (mkSortedRow k r).points = r.points := rfl

/-- Recomputing NRR from an output record gives the row's NRR. -/
theorem entryNrr_mkSortedRow (k : Nat) (r : TeamRow) :
    entryNrr (mkSortedRow k r) = nrr r.agg := rfl

/-- `List.getD` through `List.get` for in-range indices. -/
theorem getD_eq_get {α : Type} (l : List α) (d : α) (i : Nat) (h : i < l.length) :
    l.getD i d = l.get ⟨i, h⟩ := by
  rw [List.getD_eq_getElem l d h]
  rfl

/-- C2: `compute_sorted_table` returns a 1-indexed list whose records are
exactly the input rows rendered (a permutation), ordered by points
descending with net run rate descending among equal points; in
particular, of two entries with equal points, the one with strictly
higher NRR is ranked strictly above the other, regardless of the rows'
order in the input list. -/
theorem claim_C2_sorted_table (rows : List TeamRow) :
    ((compute_sorted_table rows).map (fun e => { e with pos := 0 })).Perm
        (rows.map (mkSortedRow 0)) ∧
    (∀ i, i < (compute_sorted_table rows).length →
      ((compute_sorted_table rows).getD i dummySortedRow).pos = i + 1) ∧
    (∀ i j, i < (compute_sorted_table rows).length →
      j < (compute_sorted_table rows).length → i < j →
      (((compute_sorted_table rows).getD j dummySortedRow).points <
          ((compute_sorted_table rows).getD i dummySortedRow).points ∨
        (((compute_sorted_table rows).getD j dummySortedRow).points =
            ((compute_sorted_table rows).getD i dummySortedRow).points ∧
          entryNrr ((compute_sorted_table rows).getD j dummySortedRow) ≤
            entryNrr ((compute_sorted_table rows).getD i dummySortedRow)))) ∧
    (∀ i j, i < (compute_sorted_table rows).length →
      j < (compute_sorted_table rows).length →
      ((compute_sorted_table rows).getD i dummySortedRow).points =
        ((compute_sorted_table rows).getD j dummySortedRow).points →
      entryNrr ((compute_sorted_table rows).getD j dummySortedRow) <
        entryNrr ((compute_sorted_table rows).getD i dummySortedRow) →
      ((compute_sorted_table rows).getD i dummySortedRow).pos <
        ((compute_sorted_table rows).getD j dummySortedRow).pos) := by
  have hpair : List.Pairwise tableRel (List.insertionSort tableRel rows) :=
    List.sorted_insertionSort tableRel rows
  have hlen : (compute_sorted_table rows).length =
      (List.insertionSort tableRel rows).length := by
    unfold compute_sorted_table
    exact withPos_length 1 _
  have hget : ∀ i, i < (compute_sorted_table rows).length →
      (compute_sorted_table rows).getD i dummySortedRow =
        mkSortedRow (1 + i)
          ((List.insertionSort tableRel rows).getD i dummyTeamRow) := by
    intro i hi
    unfold compute_sorted_table
    exact withPos_getD 1 _ i (by rw [← hlen]; exact hi)
  have hrel : ∀ i j (hi : i < (compute_sorted_table rows).length)
      (hj : j < (compute_sorted_table rows).length), i < j →
      tableRel ((List.insertionSort tableRel rows).getD i dummyTeamRow)
        ((List.insertionSort tableRel rows).getD j dummyTeamRow) := by
    intro i j hi hj hij
    have hi' : i < (List.insertionSort tableRel rows).length := by
      rw [← hlen]
      exact hi
    have hj' : j < (List.insertionSort tableRel rows).length := by
      rw [← hlen]
      exact hj
    rw [getD_eq_get _ _ i hi', getD_eq_get _ _ j hj']
    exact List.pairwise_iff_get.mp hpair ⟨i, hi'⟩ ⟨j, hj'⟩ hij
  refine ⟨?_, ?_, ?_, ?_⟩
  · unfold compute_sorted_table
    rw [withPos_map_strip]
    exact (List.perm_insertionSort tableRel rows).map (mkSortedRow 0)
  · intro i hi
    rw [hget i hi]
    show 1 + i = i + 1
    omega
  · intro i j hi hj hij
    have h := hrel i j hi hj hij
    unfold tableRel rowKeyLe at h
    rw [hget i hi, hget j hj]
    exact h
  · intro i j hi hj hpts hnrr
    rw [hget i hi, hget j hj] at hpts hnrr ⊢
    rw [mkSortedRow_points, mkSortedRow_points] at hpts
    rw [entryNrr_mkSortedRow, entryNrr_mkSortedRow] at hnrr
    show 1 + i < 1 + j
    have hij : i < j := by
      by_contra hij
      rcases Nat.lt_or_ge j i with hji | hji
      · have h : rowKeyLe ((List.insertionSort tableRel rows).getD i dummyTeamRow)
            ((List.insertionSort tableRel rows).getD j dummyTeamRow) :=
          hrel j i hj hi hji
        unfold rowKeyLe at h
        rcases h with h | ⟨h1, h2⟩
        · rw [hpts] at h
          exact lt_irrefl _ h
        · exact absurd hnrr (not_lt.mpr h2)
      · have hije : i = j := by omega
        rw [hije] at hnrr
        exact lt_irrefl _ hnrr
    omega

/-- Rows exercising the C2 witness: equal points 16, NRR 0.2 vs 0.1. -/
def c2RowHi : TeamRow := ⟨"H", 0, 0, 0, 0, 0, 16, ⟨"H", 1, 30, 0, 0⟩⟩

/-- Rows exercising the C2 witness: equal points 16, NRR 0.2 vs 0.1. -/
def c2RowLo : TeamRow := ⟨"L", 0, 0, 0, 0, 0, 16, ⟨"L", 1, 60, 0, 0⟩⟩

/-- Witness: C2's tie-break clause on the spec's two-team example, with
the higher-NRR team inserted second. -/
theorem claim_C2_witness :
    ((compute_sorted_table [c2RowLo, c2RowHi]).getD 0 dummySortedRow).pos <
      ((compute_sorted_table [c2RowLo, c2RowHi]).getD 1 dummySortedRow).pos :=
  (claim_C2_sorted_table [c2RowLo, c2RowHi]).2.2.2 0 1
    (by with_unfolding_all decide) (by with_unfolding_all decide)
    (by with_unfolding_all decide) (by with_unfolding_all decide)

/-! ### Monotonicity of the chase-loss ranking predicate (claim C5) -/

/-- `str(b // 6) + "." + str(b % 6)` parses back to `b` for every ball
count the solver can pass (1..120). -/
theorem balls_overs_roundtrip_aux : ∀ n : Nat, n < 120 →
    overs_to_balls (_balls_to_overs_str ((n : Int) + 1)) = .ok ((n : Int) + 1) := by
  decide

/-- Parsing round-trip for `_balls_to_overs_str` on the solver's range. -/
theorem balls_overs_roundtrip (cb : Int) (h1 : 1 ≤ cb) (h2 : cb ≤ 120) :
    overs_to_balls (_balls_to_overs_str cb) = .ok cb := by
  have hn : cb = ((cb - 1).toNat : Int) + 1 := by omega
  rw [hn]
  exact balls_overs_roundtrip_aux (cb - 1).toNat (by omega)

/-- `run_rate` is strictly increasing in the runs when balls are positive. -/
theorem run_rate_lt_of_lt (r s b : Int) (hb : 0 < b) (hrs : r < s) :
    run_rate r b < run_rate s b := by
  unfold run_rate balls_to_overs_float
  rw [if_neg (by omega : ¬ b ≤ 0)]
  dsimp only
  have hb0 : (0:ℚ) < (b:ℚ)/6 := by positivity
  have hne : ((b:ℚ)/6) ≠ 0 := ne_of_gt hb0
  simp only [if_neg hne]
  have hcast : (r:ℚ) < (s:ℚ) := by exact_mod_cast hrs
  gcongr

/-- NRR after a completed chase is strictly increasing in the runs scored,
all else fixed, as long as the batting balls are positive. -/
theorem nrr_addInnings_lt (a : TeamAggregate) (x y target cb : Int)
    (hbf : 0 ≤ a.balls_for) (hcb : 0 < cb) (hxy : x < y) :
    nrr (addInnings a x cb target 120) < nrr (addInnings a y cb target 120) := by
  unfold nrr addInnings
  dsimp only
  have h := run_rate_lt_of_lt (a.runs_for + x) (a.runs_for + y)
    (a.balls_for + cb) (by omega) (by omega)
  linarith

/-- `find?` over an append when the left part already finds a hit. -/
theorem find?_append_some {α : Type} (p : α → Bool) (l1 l2 : List α) (e : α)
    (h : l1.find? p = some e) : (l1 ++ l2).find? p = some e := by
  induction l1 with
  | nil => cases h
  | cons x xs ih =>
    by_cases hx : p x = true
    · rw [List.find?_cons_of_pos _ hx] at h
      rw [List.cons_append, List.find?_cons_of_pos _ hx]
      exact h
    · rw [List.find?_cons_of_neg _ hx] at h
      rw [List.cons_append, List.find?_cons_of_neg _ hx]
      exact ih h

/-- `find?` over an append when the left part has no hit. -/
theorem find?_append_none {α : Type} (p : α → Bool) (l1 l2 : List α)
    (h : l1.find? p = none) : (l1 ++ l2).find? p = l2.find? p := by
  induction l1 with
  | nil => rfl
  | cons x xs ih =>
    by_cases hx : p x = true
    · rw [List.find?_cons_of_pos _ hx] at h
      cases h
    · rw [List.find?_cons_of_neg _ hx] at h
      rw [List.cons_append, List.find?_cons_of_neg _ hx]
      exact ih h

/-- Every record rendered by `withPos` carries a team of the input list. -/
theorem mem_withPos_team (k : Nat) (l : List TeamRow) (e : SortedRow)
    (he : e ∈ withPos k l) : e.team ∈ l.map TeamRow.team := by
  induction l generalizing k with
  | nil =>
    unfold withPos at he
    cases he
  | cons r rest ih =>
    unfold withPos at he
    rw [List.map_cons]
    rcases List.mem_cons.mp he with he | he
    · rw [he]
      exact List.mem_cons_self _ _
    · exact List.mem_cons_of_mem _ (ih (k + 1) he)

/-- `_pos_map` on a rendered table returns the 1-based position of the
unique row carrying the requested team. -/
theorem _pos_map_withPos (k : Nat) (l : List TeamRow) (t : String) (i : Nat)
    (hi : i < l.length) (ht : (l.getD i dummyTeamRow).team = t)
    (hnd : (l.map TeamRow.team).Nodup) :
    _pos_map (withPos k l) t = some (k + i) := by
  induction l generalizing k i with
  | nil => cases hi
  | cons r rest ih =>
    unfold _pos_map
    unfold withPos
    rw [List.reverse_cons]
    cases i with
    | zero =>
      rw [List.getD_cons_zero] at ht
      have hnone : (withPos (k + 1) rest).reverse.find?
          (fun row => row.team == t) = none := by
        rw [List.find?_eq_none]
        intro e he hbe
        have hmem : e.team ∈ rest.map TeamRow.team :=
          mem_withPos_team (k + 1) rest e (List.mem_reverse.mp he)
        have het : e.team = t := by simpa using hbe
        rw [List.map_cons] at hnd
        exact (List.nodup_cons.mp hnd).1 (by rw [ht, ← het]; exact hmem)
      rw [find?_append_none _ _ _ hnone]
      rw [@List.find?_cons_of_pos SortedRow (fun row => row.team == t)
        (mkSortedRow k r) [] (by show (r.team == t) = true; simp [ht])]
      show some (mkSortedRow k r).pos = some (k + 0)
      simp [mkSortedRow]
    | succ n =>
      have hn : n < rest.length := by simpa using hi
      rw [List.getD_cons_succ] at ht
      rw [List.map_cons] at hnd
      have IH := ih (k + 1) n hn ht (List.nodup_cons.mp hnd).2
      unfold _pos_map at IH
      obtain ⟨e, hfind, hpos⟩ := Option.map_eq_some'.mp IH
      rw [find?_append_some _ _ _ e hfind]
      show some e.pos = some (k + (n + 1))
      rw [hpos]
      congr 1
      omega

/-- A looked-up row sits at some index of the sorted table, and `_pos_map`
reports exactly that 1-based index. -/
theorem is_above_table (st : State) (t : String) (r : TeamRow)
    (hnd : (st.map TeamRow.team).Nodup) (hl : lookupTeam st t = some r) :
    ∃ i : Fin (List.insertionSort tableRel st).length,
      (List.insertionSort tableRel st).get i = r ∧
      _pos_map (compute_sorted_table st) t = some (1 + i.1) := by
  have hperm := List.perm_insertionSort tableRel st
  have hmemL : r ∈ List.insertionSort tableRel st :=
    hperm.mem_iff.mpr (lookupTeam_mem st t r hl)
  obtain ⟨i, hi⟩ := List.get_of_mem hmemL
  have hndL : ((List.insertionSort tableRel st).map TeamRow.team).Nodup :=
    ((hperm.map TeamRow.team).nodup_iff).mpr hnd
  refine ⟨i, hi, ?_⟩
  unfold compute_sorted_table
  apply _pos_map_withPos 1 _ t i.1 i.2
  · have hgd : (List.insertionSort tableRel st).getD i.1 dummyTeamRow = r := by
      rw [getD_eq_get _ _ i.1 i.2]
      exact hi
    rw [hgd]
    exact lookupTeam_team st t r hl
  · exact hndL

/-- Core ranking argument: if the focus team sits above the competitor and
its row is replaced by one with the same points and strictly larger NRR
(competitor row unchanged, team codes unique), it still sits above. -/
theorem is_above_mono (stA stB : State) (f c : String) (fr frB cr : TeamRow)
    (hfc : f ≠ c)
    (hndA : (stA.map TeamRow.team).Nodup) (hndB : (stB.map TeamRow.team).Nodup)
    (hlfA : lookupTeam stA f = some fr) (hlcA : lookupTeam stA c = some cr)
    (hlfB : lookupTeam stB f = some frB) (hlcB : lookupTeam stB c = some cr)
    (hpts : frB.points = fr.points) (hnrr : nrr fr.agg < nrr frB.agg)
    (h : _is_above (compute_sorted_table stA) f c = .ok true) :
    _is_above (compute_sorted_table stB) f c = .ok true := by
  obtain ⟨i1, hg1, hp1⟩ := is_above_table stA f fr hndA hlfA
  obtain ⟨j1, hgj1, hpj1⟩ := is_above_table stA c cr hndA hlcA
  obtain ⟨i2, hg2, hp2⟩ := is_above_table stB f frB hndB hlfB
  obtain ⟨j2, hgj2, hpj2⟩ := is_above_table stB c cr hndB hlcB
  unfold _is_above at h ⊢
  rw [hp1, hpj1] at h
  rw [hp2, hpj2]
  dsimp only at h ⊢
  have hlt1 : i1.1 < j1.1 := by
    have hd := of_decide_eq_true (Except.ok.inj h)
    omega
  have hkey : rowKeyLe cr fr := by
    have hp := List.pairwise_iff_get.mp (List.sorted_insertionSort tableRel stA)
      i1 j1 (Fin.lt_def.mpr hlt1)
    rw [hg1, hgj1] at hp
    exact hp
  have hlt2 : i2.1 < j2.1 := by
    rcases Nat.lt_trichotomy i2.1 j2.1 with h2 | h2 | h2
    · exact h2
    · exfalso
      have heq : frB = cr := by
        rw [← hg2, ← hgj2]
        congr 1
        exact Fin.ext h2
      have hf : frB.team = f := lookupTeam_team stB f frB hlfB
      have hc : cr.team = c := lookupTeam_team stB c cr hlcB
      rw [heq, hc] at hf
      exact hfc hf.symm
    · exfalso
      have hp := List.pairwise_iff_get.mp (List.sorted_insertionSort tableRel stB)
        j2 i2 (Fin.lt_def.mpr h2)
      rw [hgj2, hg2] at hp
      have hpB : rowKeyLe frB cr := hp
      unfold rowKeyLe at hkey hpB
      rcases hkey with hk | ⟨hk, hkq⟩
      · rcases hpB with hq | ⟨hq, hqq⟩
        · omega
        · omega
      · rcases hpB with hq | ⟨hq, hqq⟩
        · omega
        · linarith
  rw [decide_eq_true (show 1 + i2.1 < 1 + j2.1 by omega)]

/-- Rewriting the first match of a key leaves the fresh row visible. -/
theorem lookupTeam_updateRow_self (st : State) (t : String) (r row : TeamRow)
    (hr : r.team = t) (hl : lookupTeam st t = some row) :
    lookupTeam (updateRow st t r) t = some r := by
  induction st with
  | nil => cases hl
  | cons x xs ih =>
    unfold updateRow lookupTeam at ih ⊢
    unfold lookupTeam at hl
    rw [List.map_cons]
    by_cases hx : (x.team == t) = true
    · rw [if_pos hx]
      exact @List.find?_cons_of_pos TeamRow (fun q => q.team == t) r
        (List.map (fun y => if (y.team == t) = true then r else y) xs)
        (by simp [hr])
    · rw [if_neg hx]
      rw [@List.find?_cons_of_neg TeamRow (fun q => q.team == t) x
        (List.map (fun y => if (y.team == t) = true then r else y) xs) hx]
      rw [@List.find?_cons_of_neg TeamRow (fun q => q.team == t) x xs hx] at hl
      exact ih hl

/-- The post-simulation state probed by `chase_loss_check` when the chase
falls short: the opponent wins with `target` runs off 120 balls, the
focus team scores `x` off `cb` balls. -/
def chaseLossState (base : State) (focus opponent : String)
    (f_row o_row : TeamRow) (target cb x : Int) : State :=
  updateRow (updateRow base opponent
      (winRow { o_row with agg := addInnings o_row.agg target 120 x cb })) focus
    (loseRow { f_row with agg := addInnings f_row.agg x cb target 120 })

/-- One losing probe of the chase-loss solver, written as a ranking test
on the explicit post-match state. -/
theorem chase_loss_check_eval (base : State) (focus opponent competitor : String)
    (f_row o_row : TeamRow) (target cb x : Int)
    (hlf : lookupTeam base focus = some f_row)
    (hlo : lookupTeam base opponent = some o_row)
    (hof : opponent ≠ focus)
    (hcb1 : 1 ≤ cb) (hcb2 : cb ≤ 120) (hxt : x < target) :
    chase_loss_check base focus opponent competitor target cb x =
      _is_above (compute_sorted_table
          (chaseLossState base focus opponent f_row o_row target cb x))
        focus competitor := by
  unfold chase_loss_check
  dsimp only
  rw [_clone_state_eq]
  rw [simulate_win_t1 base opponent focus o_row f_row target x 120 cb "20.0"
    (_balls_to_overs_str cb) false false none hlo hlf hof (by decide)
    (balls_overs_roundtrip cb hcb1 hcb2) (by norm_num) (by omega) hxt]
  rfl

/-- Writing the two match rows leaves the stored team codes unchanged. -/
theorem chaseLossState_map_team (base : State) (focus opponent : String)
    (f_row o_row : TeamRow) (target cb x : Int)
    (hnd : (base.map TeamRow.team).Nodup)
    (hlf : lookupTeam base focus = some f_row)
    (hlo : lookupTeam base opponent = some o_row)
    (hof : opponent ≠ focus) :
    (chaseLossState base focus opponent f_row o_row target cb x).map
        TeamRow.team = base.map TeamRow.team := by
  unfold chaseLossState
  have hteam : (winRow { o_row with agg := addInnings o_row.agg target 120 x cb }).team ≠ focus := by
    show o_row.team ≠ focus
    rw [lookupTeam_team base opponent o_row hlo]
    exact hof
  have h1 : (updateRow base opponent
      (winRow { o_row with agg := addInnings o_row.agg target 120 x cb })).map
        TeamRow.team = base.map TeamRow.team :=
    map_proj_updateRow TeamRow.team base opponent _ o_row hlo hnd rfl
  have hlf2 : lookupTeam (updateRow base opponent
      (winRow { o_row with agg := addInnings o_row.agg target 120 x cb }))
        focus = some f_row := by
    rw [lookupTeam_updateRow_ne base opponent _ focus (Ne.symm hof) hteam]
    exact hlf
  rw [map_proj_updateRow TeamRow.team _ focus
    (loseRow { f_row with agg := addInnings f_row.agg x cb target 120 }) f_row
    hlf2 (by rw [h1]; exact hnd) rfl]
  exact h1

/-- The focus row of the probed state is the losing chase row. -/
theorem chaseLossState_lookup_focus (base : State) (focus opponent : String)
    (f_row o_row : TeamRow) (target cb x : Int)
    (hlf : lookupTeam base focus = some f_row)
    (hlo : lookupTeam base opponent = some o_row)
    (hof : opponent ≠ focus) :
    lookupTeam (chaseLossState base focus opponent f_row o_row target cb x)
        focus =
      some (loseRow { f_row with agg := addInnings f_row.agg x cb target 120 }) := by
  unfold chaseLossState
  have hteam : (winRow { o_row with agg := addInnings o_row.agg target 120 x cb }).team ≠ focus := by
    show o_row.team ≠ focus
    rw [lookupTeam_team base opponent o_row hlo]
    exact hof
  have hlf2 : lookupTeam (updateRow base opponent
      (winRow { o_row with agg := addInnings o_row.agg target 120 x cb }))
        focus = some f_row := by
    rw [lookupTeam_updateRow_ne base opponent _ focus (Ne.symm hof) hteam]
    exact hlf
  exact lookupTeam_updateRow_self _ focus _ f_row
    (show f_row.team = focus from lookupTeam_team base focus f_row hlf) hlf2

/-- The competitor row of the probed state is untouched. -/
theorem chaseLossState_lookup_comp (base : State)
    (focus opponent competitor : String)
    (f_row o_row c_row : TeamRow) (target cb x : Int)
    (hlf : lookupTeam base focus = some f_row)
    (hlo : lookupTeam base opponent = some o_row)
    (hlc : lookupTeam base competitor = some c_row)
    (hfc : focus ≠ competitor) (hoc : opponent ≠ competitor) :
    lookupTeam (chaseLossState base focus opponent f_row o_row target cb x)
        competitor = some c_row := by
  unfold chaseLossState
  have hteamF : (loseRow { f_row with agg := addInnings f_row.agg x cb target 120 }).team ≠ competitor := by
    show f_row.team ≠ competitor
    rw [lookupTeam_team base focus f_row hlf]
    exact hfc
  have hteamO : (winRow { o_row with agg := addInnings o_row.agg target 120 x cb }).team ≠ competitor := by
    show o_row.team ≠ competitor
    rw [lookupTeam_team base opponent o_row hlo]
    exact hoc
  rw [lookupTeam_updateRow_ne _ focus _ competitor (Ne.symm hfc) hteamF]
  rw [lookupTeam_updateRow_ne base opponent _ competitor (Ne.symm hoc) hteamO]
  exact hlc

/-- C5: the ranking predicate probed by `chase_loss_min_score` is monotone
in the chasing score. For distinct focus/opponent/competitor teams known
to a state with unique team codes, an assumed ball count in the solver's
1..120 range, a nonnegative stored balls-for count on the focus row, and
scores `0 ≤ x < y ≤ target - 1`: if the losing probe at score `x` keeps
the focus team ranked above the competitor, so does the probe at `y`. -/
theorem claim_C5_chase_loss_monotone (base : State)
    (focus opponent competitor : String) (f_row o_row c_row : TeamRow)
    (target cb x y : Int)
    (hnd : (base.map TeamRow.team).Nodup)
    (hlf : lookupTeam base focus = some f_row)
    (hlo : lookupTeam base opponent = some o_row)
    (hlc : lookupTeam base competitor = some c_row)
    (hfo : focus ≠ opponent) (hfc : focus ≠ competitor)
    (hoc : opponent ≠ competitor)
    (hcb1 : 1 ≤ cb) (hcb2 : cb ≤ 120)
    (hbf : 0 ≤ f_row.agg.balls_for)
    (_hx0 : 0 ≤ x) (hxy : x < y) (hyt : y ≤ target - 1)
    (hok : chase_loss_check base focus opponent competitor target cb x = .ok true) :
    chase_loss_check base focus opponent competitor target cb y = .ok true := by
  rw [chase_loss_check_eval base focus opponent competitor f_row o_row target cb x
    hlf hlo (Ne.symm hfo) hcb1 hcb2 (by omega)] at hok
  rw [chase_loss_check_eval base focus opponent competitor f_row o_row target cb y
    hlf hlo (Ne.symm hfo) hcb1 hcb2 (by omega)]
  have hndx := chaseLossState_map_team base focus opponent f_row o_row target
    cb x hnd hlf hlo (Ne.symm hfo)
  have hndy := chaseLossState_map_team base focus opponent f_row o_row target
    cb y hnd hlf hlo (Ne.symm hfo)
  exact is_above_mono
    (chaseLossState base focus opponent f_row o_row target cb x)
    (chaseLossState base focus opponent f_row o_row target cb y)
    focus competitor
    (loseRow { f_row with agg := addInnings f_row.agg x cb target 120 })
    (loseRow { f_row with agg := addInnings f_row.agg y cb target 120 })
    c_row hfc
    (by rw [hndx]; exact hnd) (by rw [hndy]; exact hnd)
    (chaseLossState_lookup_focus base focus opponent f_row o_row target cb x
      hlf hlo (Ne.symm hfo))
    (chaseLossState_lookup_comp base focus opponent competitor f_row o_row
      c_row target cb x hlf hlo hlc hfc hoc)
    (chaseLossState_lookup_focus base focus opponent f_row o_row target cb y
      hlf hlo (Ne.symm hfo))
    (chaseLossState_lookup_comp base focus opponent competitor f_row o_row
      c_row target cb y hlf hlo hlc hfc hoc)
    rfl
    (by
      show nrr (addInnings f_row.agg x cb target 120) <
        nrr (addInnings f_row.agg y cb target 120)
      exact nrr_addInnings_lt f_row.agg x y target cb hbf (by omega) hxy)
    hok

/-- Three-team state exercising the C5 witness. -/
def c5RowF : TeamRow := ⟨"F", 1, 1, 0, 0, 0, 2, ⟨"F", 100, 120, 80, 120⟩⟩

/-- Three-team state exercising the C5 witness. -/
def c5RowO : TeamRow := ⟨"O", 1, 0, 1, 0, 0, 0, ⟨"O", 80, 120, 100, 120⟩⟩

/-- Three-team state exercising the C5 witness. -/
def c5RowC : TeamRow := ⟨"C", 1, 1, 0, 0, 0, 2, ⟨"C", 90, 120, 85, 120⟩⟩

/-- Three-team state exercising the C5 witness. -/
def c5State : State := [c5RowF, c5RowO, c5RowC]

/-- Witness: with F and C tied on points, a losing chase of 150 in which F
scores 141 keeps F above C on NRR, and C5 lifts this to the higher
score 149. -/
theorem claim_C5_witness :
    chase_loss_check c5State "F" "O" "C" 150 120 141 = .ok true ∧
    chase_loss_check c5State "F" "O" "C" 150 120 149 = .ok true :=
  ⟨by with_unfolding_all decide,
   claim_C5_chase_loss_monotone c5State "F" "O" "C" c5RowF c5RowO c5RowC
     150 120 141 149
     (by decide) (by decide) (by decide) (by decide) (by decide) (by decide)
     (by decide) (by decide) (by decide) (by decide) (by decide) (by decide)
     (by decide) (by with_unfolding_all decide)⟩

end IplNrr
